import Mathlib

/-!
Block pre-validation and fork-choice bookkeeping (beacon-chain/blockchain)

A shallow embedding of `beacon-chain/blockchain/process_block_helpers.go` and of the evaluator
`validatorsAreActive` of `endtoend/evaluators/validator.go`.

* Byte slices (`[]byte`) are lists of naturals; the nil slice and the empty slice are both `[]`
  (every comparison in the source goes through `bytes.Equal`, which identifies them).
* `[32]byte` arrays are lists of length exactly 32.
* `uint64` values are naturals; arithmetic that can wrap is reduced modulo `2 ^ 64`.
* Go's `(value, error)` results are `Except Error value`; a bare `error` result is
  `Option Error` (`none` is the nil error).
* The recursive `ancestor` carries a recursion budget: the outer `Option` of every function that
  walks the chain is `none` exactly when the budget was too small for the walk.
* The persistent store, the wall clock, the parameter set and the hashing function are not part of
  the file under study; they are explicit arguments (`BeaconDB`, `Env`).
-/

set_option autoImplicit false

namespace Blockchain

/-! ## Data model -/

/-- A Go byte slice. -/
abbrev Bytes := List Nat

/-- A Go `[32]byte` array. -/
abbrev Bytes32 := { l : List Nat // l.length = 32 }

/-- Modelled from the spec: `bytesutil.ToBytes32` is not in the sources at hand; a root is a
32-byte identifier, and the conversion copies the first 32 bytes of the slice into a zeroed
array. -/
def ToBytes32 (x : Bytes) : Bytes32 :=
  ⟨x.take 32 ++ List.replicate (32 - x.length) 0, by
    simp only [List.length_append, List.length_take, List.length_replicate]; omega⟩

/-- The fields of `ethpb.BeaconBlock` read by the helpers. -/
structure BeaconBlock where
  Slot : Nat
  ParentRoot : Bytes
  deriving DecidableEq, Repr

/-- An `ethpb.SignedBeaconBlock`; the inner block pointer may be nil. -/
structure SignedBeaconBlock where
  Block : Option BeaconBlock
  deriving DecidableEq, Repr

/-- An `ethpb.Checkpoint`. -/
structure Checkpoint where
  Epoch : Nat
  Root : Bytes
  deriving DecidableEq, Repr

/-- The fields of `ethpb.Validator` read by the helpers and the evaluators. -/
structure Validator where
  PublicKey : Bytes
  EffectiveBalance : Nat
  ActivationEpoch : Nat
  ExitEpoch : Nat
  WithdrawableEpoch : Nat
  deriving DecidableEq, Repr

/-- The fields of `pb.BeaconState` read by the helpers. -/
structure BeaconState where
  GenesisTime : Nat
  Slot : Nat
  Validators : List Validator
  CurrentJustifiedCheckpoint : Checkpoint
  FinalizedCheckpoint : Checkpoint
  deriving DecidableEq, Repr

/-- The annotation texts passed to `errors.Wrap` / `errors.Wrapf`. -/
inductive WrapMsg where
  | couldNotGetPreState (slot : Nat)
  | couldNotGetFinalizedBlock
  | couldNotGetFinalizedBlockRoot
  | couldNotGetAncestorBlock
  | couldNotSaveJustifiedState
  | couldNotSaveState
  | couldNotSaveActivatedValidators (indices : List Nat)
  | failedToGetValidators
  deriving DecidableEq, Repr

/-- Error values. The formatted texts of `fmt.Errorf` / `errors.New` are kept as constructors with
the values they print (the descendant error prints a truncation of the two roots; the roots are
kept whole here). -/
inductive Error where
  /-- The value of `ctx.Err()` for a cancelled or expired context. -/
  | context (code : Nat)
  /-- A failure reported by the store. -/
  | store (code : Nat)
  /-- A failure reported by `helpers.VerifySlotTime`. -/
  | slotTime (code : Nat)
  /-- A failure reported by `ssz.SigningRoot`. -/
  | ssz (code : Nat)
  /-- The result of `errors.Wrap` on a non-nil error. -/
  | wrap (msg : WrapMsg) (cause : Error)
  /-- "pre state of slot %d does not exist". -/
  | preStateMissing (slot : Nat)
  /-- "block from slot %d is not a descendent of the current finalized block slot %d". -/
  | notDescendant (slot finalizedSlot : Nat) (got want : Bytes)
  /-- "block is equal or earlier than finalized block, slot %d < slot %d". -/
  | beforeFinalizedSlot (slot finalizedSlot : Nat)
  /-- "nil block". -/
  | nilBlock
  /-- "nil new justified block". -/
  | nilNewJustifiedBlock
  /-- "nil justified block". -/
  | nilJustifiedBlock
  /-- A failure reported by the beacon-chain client of the end-to-end evaluators. -/
  | client (code : Nat)
  /-- "expected validator count to be %d, recevied %d". -/
  | validatorCount (expected received : Nat)
  /-- "%d validators did not have genesis validator effective balance of %d". -/
  | effectiveBalanceLow (count maxEffectiveBalance : Nat)
  /-- "%d validators did not have genesis validator epoch of 0". -/
  | activationEpochWrong (count : Nat)
  /-- "%d validators did not have genesis validator exit epoch of far future epoch". -/
  | exitEpochWrong (count : Nat)
  /-- "%d validators did not have genesis validator withdrawable epoch of far future epoch". -/
  | withdrawableEpochWrong (count : Nat)
  deriving DecidableEq, Repr

deriving instance DecidableEq for Except

/-- The function `errors.Wrap` of `github.com/pkg/errors`: it annotates a non-nil error and, as
documented there, returns nil when the error is nil. -/
def errorsWrap (err : Option Error) (msg : WrapMsg) : Option Error :=
  match err with
  | none => none
  | some e => some (Error.wrap msg e)

/-! ## The persistent store -/

/-- The requests the helpers send to the store; used to say which of them fail. -/
inductive DBCall where
  | Block (root : Bytes32)
  | State (root : Bytes32)
  | Blocks (startSlot endSlot : Nat)
  | BlockRoots (startSlot endSlot : Nat)
  | FinalizedCheckpoint
  | HeadBlock
  | DeleteStates (roots : List Bytes32)
  | SaveState (root : Bytes32)
  | SaveJustifiedCheckpoint (cp : Checkpoint)
  | SaveValidatorIndices (pubKeys : List Bytes) (indices : List Nat)
  deriving DecidableEq

/-- Modelled from the spec: the persistent store (`beaconDB`) is an interface whose implementation
is not in the sources at hand. Blocks and states are keyed by root, the head block and the
finalized and justified checkpoints are single cells, and `fault` names the requests that the
backend answers with an error. -/
structure BeaconDB where
  blocks : List (Bytes32 × SignedBeaconBlock)
  states : List (Bytes32 × BeaconState)
  headBlock : Option SignedBeaconBlock
  finalizedCheckpoint : Checkpoint
  justifiedCheckpoint : Checkpoint
  validatorIndices : List (Bytes × Nat)
  fault : DBCall → Option Error

/-- First value stored under a key in an association list. -/
def lookup {β : Type} (k : Bytes32) : List (Bytes32 × β) → Option β
  | [] => none
  | (k0, v) :: rest => if k0 = k then some v else lookup k rest

/-- Whether a stored block lies in the inclusive slot range of a filter. -/
def inSlotRange (startSlot endSlot : Nat) (sb : SignedBeaconBlock) : Bool :=
  match sb.Block with
  | none => false
  | some b => decide (startSlot ≤ b.Slot) && decide (b.Slot ≤ endSlot)

namespace BeaconDB

/-- Modelled from the spec: `get_block(root) -> Option<SignedBlock>`. -/
def Block (db : BeaconDB) (root : Bytes32) : Except Error (Option SignedBeaconBlock) :=
  match db.fault (DBCall.Block root) with
  | some e => Except.error e
  | none => Except.ok (lookup root db.blocks)

/-- Modelled from the spec: `get_state(root) -> Option<State>`. -/
def State (db : BeaconDB) (root : Bytes32) : Except Error (Option BeaconState) :=
  match db.fault (DBCall.State root) with
  | some e => Except.error e
  | none => Except.ok (lookup root db.states)

/-- Modelled from the spec: `blocks_in_slot_range(start, end) -> [Block]`, the stored blocks
whose slot lies in the inclusive range set by `SetStartSlot` and `SetEndSlot`. -/
def Blocks (db : BeaconDB) (startSlot endSlot : Nat) : Except Error (List SignedBeaconBlock) :=
  match db.fault (DBCall.Blocks startSlot endSlot) with
  | some e => Except.error e
  | none => Except.ok ((db.blocks.filter (fun p => inSlotRange startSlot endSlot p.2)).map Prod.snd)

/-- Modelled from the spec: `block_roots_in_slot_range(start, end) -> [Root]`, the roots of the
stored blocks whose slot lies in the inclusive range. -/
def BlockRoots (db : BeaconDB) (startSlot endSlot : Nat) : Except Error (List Bytes32) :=
  match db.fault (DBCall.BlockRoots startSlot endSlot) with
  | some e => Except.error e
  | none => Except.ok ((db.blocks.filter (fun p => inSlotRange startSlot endSlot p.2)).map Prod.fst)

/-- Modelled from the spec: `get_finalized_checkpoint() -> Checkpoint`. -/
def FinalizedCheckpoint (db : BeaconDB) : Except Error Checkpoint :=
  match db.fault DBCall.FinalizedCheckpoint with
  | some e => Except.error e
  | none => Except.ok db.finalizedCheckpoint

/-- Modelled from the spec: `get_head_block() -> SignedBlock`. -/
def HeadBlock (db : BeaconDB) : Except Error (Option SignedBeaconBlock) :=
  match db.fault DBCall.HeadBlock with
  | some e => Except.error e
  | none => Except.ok db.headBlock

/-- Modelled from the spec: `delete_states([Root])`, which removes the states keyed by the given
roots. The store after the request comes with the error, if any. -/
def DeleteStates (db : BeaconDB) (roots : List Bytes32) : BeaconDB × Option Error :=
  match db.fault (DBCall.DeleteStates roots) with
  | some e => (db, some e)
  | none => ({ db with states := db.states.filter (fun p => decide (p.1 ∉ roots)) }, none)

/-- Modelled from the spec: `save_state(state, root)`. A nil state leaves the table as it is. -/
def SaveState (db : BeaconDB) (state : Option BeaconState) (root : Bytes32) :
    BeaconDB × Option Error :=
  match db.fault (DBCall.SaveState root) with
  | some e => (db, some e)
  | none =>
    match state with
    | none => (db, none)
    | some st => ({ db with states := (root, st) :: db.states }, none)

/-- Modelled from the spec: `save_justified_checkpoint(Checkpoint)`. -/
def SaveJustifiedCheckpoint (db : BeaconDB) (cp : Checkpoint) : BeaconDB × Option Error :=
  match db.fault (DBCall.SaveJustifiedCheckpoint cp) with
  | some e => (db, some e)
  | none => ({ db with justifiedCheckpoint := cp }, none)

/-- Modelled from the spec: `save_validator_indices([public_key], [index])`, one batch. -/
def SaveValidatorIndices (db : BeaconDB) (pubKeys : List Bytes) (indices : List Nat) :
    BeaconDB × Option Error :=
  match db.fault (DBCall.SaveValidatorIndices pubKeys indices) with
  | some e => (db, some e)
  | none => ({ db with validatorIndices := pubKeys.zip indices ++ db.validatorIndices }, none)

end BeaconDB

/-! ## Environment and service state -/

/-- The entries of `params.BeaconConfig()` that the helpers read. The two divisors are positive,
as in every parameter set. -/
structure BeaconChainConfig where
  SecondsPerSlot : Nat
  SlotsPerEpoch : Nat
  SafeSlotsToUpdateJustified : Nat
  MinGenesisActiveValidatorCount : Nat
  MaxEffectiveBalance : Nat
  FarFutureEpoch : Nat
  secondsPerSlot_pos : 0 < SecondsPerSlot
  slotsPerEpoch_pos : 0 < SlotsPerEpoch

/-- What the helpers read from outside the service: the parameter set, the feature flag, the
wall clock (`time.Now().Unix()`), and the two library functions `helpers.VerifySlotTime` and
`ssz.SigningRoot`, whose code is not in the sources at hand. -/
structure Env where
  cfg : BeaconChainConfig
  InitSyncCacheState : Bool
  now : Int
  VerifySlotTime : Nat → Nat → Option Error
  SigningRoot : Option SignedBeaconBlock → Except Error Bytes32

/-- A `context.Context`, reduced to the value of `ctx.Err()`. -/
structure Context where
  err : Option Error

/-- The fields of `Service` used by the helpers. -/
structure Service where
  beaconDB : BeaconDB
  genesisTime : Int
  finalizedCheckpt : Checkpoint
  justifiedCheckpt : Checkpoint
  bestJustifiedCheckpt : Checkpoint
  initSyncState : List (Bytes32 × BeaconState)

/-- Modelled from the spec: `helpers.StartSlot` is not in the sources at hand;
`start_slot(epoch) = epoch * SLOTS_PER_EPOCH`, a `uint64` product. -/
def StartSlot (cfg : BeaconChainConfig) (epoch : Nat) : Nat :=
  (epoch * cfg.SlotsPerEpoch) % 2 ^ 64

/-- Modelled from the spec: `helpers.SlotsSinceEpochStarts` is not in the sources at hand; the
number of slots between a slot and the start slot of its epoch. -/
def SlotsSinceEpochStarts (cfg : BeaconChainConfig) (slot : Nat) : Nat :=
  slot - StartSlot cfg (slot / cfg.SlotsPerEpoch)

/-! ## The helpers of `process_block_helpers.go` -/

/-- The method `currentSlot`: the seconds since genesis, converted to `uint64`, divided by the
slot duration. -/
def currentSlot (env : Env) (s : Service) : Nat :=
  ((env.now - s.genesisTime) % (2 ^ 64 : Int)).toNat / env.cfg.SecondsPerSlot

/-- The method `ancestor`. The first argument is the recursion budget; `none` says the budget ran
out before the walk ended. The empty list is the nil result. -/
def ancestor (s : Service) (ctx : Context) : Nat → Bytes → Nat → Option (Except Error Bytes)
  | 0, _, _ => none
  | fuel + 1, root, slot =>
    match ctx.err with
    | some e => some (Except.error e)
    | none =>
      match s.beaconDB.Block (ToBytes32 root) with
      | Except.error e => some (Except.error (Error.wrap WrapMsg.couldNotGetAncestorBlock e))
      | Except.ok none => some (Except.error Error.nilBlock)
      | Except.ok (some signed) =>
        match signed.Block with
        | none => some (Except.error Error.nilBlock)
        | some b =>
          if b.Slot < slot then some (Except.ok [])
          else if b.Slot = slot then some (Except.ok root)
          else ancestor s ctx fuel b.ParentRoot slot

/-- The method `verifyBlkPreState`. -/
def verifyBlkPreState (s : Service) (b : BeaconBlock) : Except Error BeaconState :=
  match s.beaconDB.State (ToBytes32 b.ParentRoot) with
  | Except.error e => Except.error (Error.wrap (WrapMsg.couldNotGetPreState b.Slot) e)
  | Except.ok none => Except.error (Error.preStateMissing b.Slot)
  | Except.ok (some preState) => Except.ok preState

/-- The method `verifyBlkDescendant`. When the finalized block cannot be read, the source
returns `errors.Wrap(err, ...)` with whatever `err` the store gave, nil included. -/
def verifyBlkDescendant (s : Service) (ctx : Context) (fuel : Nat) (root : Bytes32)
    (slot : Nat) : Option (Option Error) :=
  match s.beaconDB.Block (ToBytes32 s.finalizedCheckpt.Root) with
  | Except.error e => some (errorsWrap (some e) WrapMsg.couldNotGetFinalizedBlock)
  | Except.ok none => some (errorsWrap none WrapMsg.couldNotGetFinalizedBlock)
  | Except.ok (some finalizedBlkSigned) =>
    match finalizedBlkSigned.Block with
    | none => some (errorsWrap none WrapMsg.couldNotGetFinalizedBlock)
    | some finalizedBlk =>
      match ancestor s ctx fuel root.val finalizedBlk.Slot with
      | none => none
      | some (Except.error e) =>
        some (errorsWrap (some e) WrapMsg.couldNotGetFinalizedBlockRoot)
      | some (Except.ok bFinalizedRoot) =>
        if bFinalizedRoot ≠ s.finalizedCheckpt.Root then
          some (some (Error.notDescendant slot finalizedBlk.Slot bFinalizedRoot
            s.finalizedCheckpt.Root))
        else some none

/-- The method `verifyBlkFinalizedSlot`. -/
def verifyBlkFinalizedSlot (env : Env) (s : Service) (b : BeaconBlock) : Option Error :=
  let finalizedSlot := StartSlot env.cfg s.finalizedCheckpt.Epoch
  if finalizedSlot ≥ b.Slot then some (Error.beforeFinalizedSlot b.Slot finalizedSlot)
  else none

/-- The method `getBlockPreState`. -/
def getBlockPreState (env : Env) (s : Service) (ctx : Context) (fuel : Nat) (b : BeaconBlock) :
    Option (Except Error BeaconState) :=
  match verifyBlkPreState s b with
  | Except.error e => some (Except.error e)
  | Except.ok preState =>
    match env.VerifySlotTime preState.GenesisTime b.Slot with
    | some e => some (Except.error e)
    | none =>
      match verifyBlkDescendant s ctx fuel (ToBytes32 b.ParentRoot) b.Slot with
      | none => none
      | some (some e) => some (Except.error e)
      | some none =>
        match verifyBlkFinalizedSlot env s b with
        | some e => some (Except.error e)
        | none => some (Except.ok preState)

/-- The first loop of `rmStatesOlderThanLastFinalized`: from `i` downwards while `i > 0`, the
first slot holding a stored block replaces `startSlot`. -/
def skipStartSlot (db : BeaconDB) (startSlot : Nat) : Nat → Except Error Nat
  | 0 => Except.ok startSlot
  | i + 1 =>
    match db.Blocks (i + 1) (i + 1) with
    | Except.error e => Except.error e
    | Except.ok b => if b.length > 0 then Except.ok (i + 1) else skipStartSlot db startSlot i

/-- The second loop of `rmStatesOlderThanLastFinalized`: from `i` downwards while `i > 0`, the
first slot holding a stored block, minus one, replaces `endSlot`. -/
def skipEndSlot (db : BeaconDB) (endSlot : Nat) : Nat → Except Error Nat
  | 0 => Except.ok endSlot
  | i + 1 =>
    match db.Blocks (i + 1) (i + 1) with
    | Except.error e => Except.error e
    | Except.ok b => if b.length > 0 then Except.ok (i + 1 - 1) else skipEndSlot db endSlot i

/-- The method `filterBlockRoots`. -/
def filterBlockRoots (env : Env) (s : Service) (roots : List Bytes32) :
    Except Error (List Bytes32) :=
  match s.beaconDB.FinalizedCheckpoint with
  | Except.error e => Except.error e
  | Except.ok f =>
    let fRoot := f.Root
    match s.beaconDB.HeadBlock with
    | Except.error e => Except.error e
    | Except.ok h =>
      match env.SigningRoot h with
      | Except.error e => Except.error e
      | Except.ok hRoot =>
        Except.ok (roots.filter (fun root => !(decide (root.val = fRoot) || decide (root.val = hRoot.val))))

/-- The method `rmStatesOlderThanLastFinalized`; the service after the call comes with the
error, if any. -/
def rmStatesOlderThanLastFinalized (env : Env) (s : Service) (startSlot endSlot : Nat) :
    Service × Option Error :=
  match skipStartSlot s.beaconDB startSlot startSlot with
  | Except.error e => (s, some e)
  | Except.ok startSlot1 =>
    match skipEndSlot s.beaconDB endSlot endSlot with
    | Except.error e => (s, some e)
    | Except.ok endSlot1 =>
      let startSlot2 := if startSlot1 = 0 then startSlot1 + 1 else startSlot1
      let endSlot2 := if endSlot1 < startSlot2 then startSlot2 else endSlot1
      match s.beaconDB.BlockRoots startSlot2 endSlot2 with
      | Except.error e => (s, some e)
      | Except.ok roots =>
        match filterBlockRoots env s roots with
        | Except.error e => (s, some e)
        | Except.ok filtered =>
          match s.beaconDB.DeleteStates filtered with
          | (db, some e) => ({ s with beaconDB := db }, some e)
          | (db, none) => ({ s with beaconDB := db }, none)

/-- The method `shouldUpdateCurrentJustified`. -/
def shouldUpdateCurrentJustified (env : Env) (s : Service) (ctx : Context) (fuel : Nat)
    (newJustifiedCheckpt : Checkpoint) : Option (Except Error Bool) :=
  if SlotsSinceEpochStarts env.cfg (currentSlot env s) < env.cfg.SafeSlotsToUpdateJustified then
    some (Except.ok true)
  else
    match s.beaconDB.Block (ToBytes32 newJustifiedCheckpt.Root) with
    | Except.error e => some (Except.error e)
    | Except.ok none => some (Except.error Error.nilNewJustifiedBlock)
    | Except.ok (some newJustifiedBlockSigned) =>
      match newJustifiedBlockSigned.Block with
      | none => some (Except.error Error.nilNewJustifiedBlock)
      | some newJustifiedBlock =>
        if newJustifiedBlock.Slot ≤ StartSlot env.cfg s.justifiedCheckpt.Epoch then
          some (Except.ok false)
        else
          match s.beaconDB.Block (ToBytes32 s.justifiedCheckpt.Root) with
          | Except.error e => some (Except.error e)
          | Except.ok none => some (Except.error Error.nilJustifiedBlock)
          | Except.ok (some justifiedBlockSigned) =>
            match justifiedBlockSigned.Block with
            | none => some (Except.error Error.nilJustifiedBlock)
            | some justifiedBlock =>
              match ancestor s ctx fuel newJustifiedCheckpt.Root justifiedBlock.Slot with
              | none => none
              | some (Except.error e) => some (Except.error e)
              | some (Except.ok b) =>
                if b ≠ s.justifiedCheckpt.Root then some (Except.ok false)
                else some (Except.ok true)

/-- The method `updateJustified`; the service after the call comes with the error, if any. -/
def updateJustified (env : Env) (s : Service) (ctx : Context) (fuel : Nat)
    (state : BeaconState) : Option (Service × Option Error) :=
  let s1 : Service :=
    if state.CurrentJustifiedCheckpoint.Epoch > s.bestJustifiedCheckpt.Epoch then
      { s with bestJustifiedCheckpt := state.CurrentJustifiedCheckpoint }
    else s
  match shouldUpdateCurrentJustified env s1 ctx fuel state.CurrentJustifiedCheckpoint with
  | none => none
  | some (Except.error e) => some (s1, some e)
  | some (Except.ok canUpdate) =>
    let s2 : Service :=
      if canUpdate then { s1 with justifiedCheckpt := state.CurrentJustifiedCheckpoint } else s1
    if env.InitSyncCacheState then
      let justifiedRoot := ToBytes32 state.CurrentJustifiedCheckpoint.Root
      let justifiedState := lookup justifiedRoot s2.initSyncState
      match s2.beaconDB.SaveState justifiedState justifiedRoot with
      | (db, some e) =>
        some ({ s2 with beaconDB := db }, errorsWrap (some e) WrapMsg.couldNotSaveJustifiedState)
      | (db, none) =>
        match db.SaveJustifiedCheckpoint state.CurrentJustifiedCheckpoint with
        | (db1, err) => some ({ s2 with beaconDB := db1 }, err)
    else
      match s2.beaconDB.SaveJustifiedCheckpoint state.CurrentJustifiedCheckpoint with
      | (db1, err) => some ({ s2 with beaconDB := db1 }, err)

/-- The method `cachedPreState`; `proto.Clone` is the identity on values. -/
def cachedPreState (env : Env) (s : Service) (b : BeaconBlock) : Except Error BeaconState :=
  if env.InitSyncCacheState then
    match lookup (ToBytes32 b.ParentRoot) s.initSyncState with
    | some preState => Except.ok preState
    | none =>
      match s.beaconDB.State (ToBytes32 b.ParentRoot) with
      | Except.error e => Except.error (Error.wrap (WrapMsg.couldNotGetPreState b.Slot) e)
      | Except.ok none => Except.error (Error.preStateMissing b.Slot)
      | Except.ok (some preState) => Except.ok preState
  else
    match s.beaconDB.State (ToBytes32 b.ParentRoot) with
    | Except.error e => Except.error (Error.wrap (WrapMsg.couldNotGetPreState b.Slot) e)
    | Except.ok none => Except.error (Error.preStateMissing b.Slot)
    | Except.ok (some preState) => Except.ok preState

/-- The method `saveInitState`; the service after the call comes with the error, if any. The
eviction bound is the `uint64` product `Epoch * SlotsPerEpoch`. -/
def saveInitState (env : Env) (s : Service) (state : BeaconState) : Service × Option Error :=
  if !env.InitSyncCacheState then (s, none)
  else
    let finalizedRoot := ToBytes32 state.FinalizedCheckpoint.Root
    let fs := lookup finalizedRoot s.initSyncState
    match s.beaconDB.SaveState fs finalizedRoot with
    | (db, some e) => ({ s with beaconDB := db }, errorsWrap (some e) WrapMsg.couldNotSaveState)
    | (db, none) =>
      ({ s with
          beaconDB := db
          initSyncState := s.initSyncState.filter (fun entry =>
            !decide (entry.2.Slot <
              (state.FinalizedCheckpoint.Epoch * env.cfg.SlotsPerEpoch) % 2 ^ 64)) }, none)

/-- The loop of `saveNewValidators`: for `count` rounds from index `i`, append the index to
`indices` and the public key of the validator at that index to `pubKeys`. The index stays within
the validator list, so the lookup never fails. -/
def collectNewValidators (validators : List Validator) :
    Nat → Nat → List Nat → List Bytes → List Nat × List Bytes
  | 0, _, indices, pubKeys => (indices, pubKeys)
  | count + 1, i, indices, pubKeys =>
    match validators[i]? with
    | none => (indices, pubKeys)
    | some v =>
      collectNewValidators validators count (i + 1) (indices ++ [i]) (pubKeys ++ [v.PublicKey])

/-- The method `saveNewValidators`, for a non-negative count; the service after the call comes
with the error, if any. The loop runs from the old count up to the new one. -/
def saveNewValidators (s : Service) (preStateValidatorCount : Nat) (postState : BeaconState) :
    Service × Option Error :=
  let postStateValidatorCount := postState.Validators.length
  if preStateValidatorCount ≠ postStateValidatorCount then
    let collected := collectNewValidators postState.Validators
      (postStateValidatorCount - preStateValidatorCount) preStateValidatorCount [] []
    let indices := collected.1
    let pubKeys := collected.2
    match s.beaconDB.SaveValidatorIndices pubKeys indices with
    | (db, some e) =>
      ({ s with beaconDB := db },
        errorsWrap (some e) (WrapMsg.couldNotSaveActivatedValidators indices))
    | (db, none) => ({ s with beaconDB := db }, none)
  else (s, none)

/-! ## Chains of stored blocks -/

/-- The block stored under a root given as a byte slice, when there is one. -/
def blockAt (s : Service) (root : Bytes) : Option BeaconBlock :=
  match lookup (ToBytes32 root) s.beaconDB.blocks with
  | none => none
  | some signed => signed.Block

/-- The root `x` is `r`, or is reached from `r` by following the parent roots of stored blocks. -/
inductive Reaches (s : Service) : Bytes → Bytes → Prop where
  | refl (r : Bytes) : Reaches s r r
  | step {r x : Bytes} (b : BeaconBlock) :
      blockAt s r = some b → Reaches s b.ParentRoot x → Reaches s r x

/-- Every stored block whose parent is also stored has a slot strictly greater than its
parent's. -/
def SlotsIncrease (s : Service) : Prop :=
  ∀ (r : Bytes) (b p : BeaconBlock),
    blockAt s r = some b → blockAt s b.ParentRoot = some p → p.Slot < b.Slot

/-- A decidable test for `SlotsIncrease`: it inspects every stored block. -/
def slotsIncreaseCheck (s : Service) : Bool :=
  s.beaconDB.blocks.all (fun entry =>
    match entry.2.Block with
    | none => true
    | some b =>
      match blockAt s b.ParentRoot with
      | none => true
      | some p => decide (p.Slot < b.Slot))

/-! ## Sample data -/

/-- The 32-byte root whose bytes all equal `n`. -/
def sampleRoot (n : Nat) : Bytes := List.replicate 32 n

/-- A store that answers every request. -/
def noFault : DBCall → Option Error := fun _ => none

/-- A store holding the given blocks and states and nothing else. -/
def sampleDB (blocks : List (Bytes × BeaconBlock)) (states : List (Bytes × BeaconState)) :
    BeaconDB where
  blocks := blocks.map (fun p => (ToBytes32 p.1, { Block := some p.2 }))
  states := states.map (fun p => (ToBytes32 p.1, p.2))
  headBlock := none
  finalizedCheckpoint := { Epoch := 0, Root := sampleRoot 0 }
  justifiedCheckpoint := { Epoch := 0, Root := sampleRoot 0 }
  validatorIndices := []
  fault := noFault

/-- A service over a store, with the three checkpoints given. -/
def sampleService (db : BeaconDB) (finalized justified best : Checkpoint) : Service where
  beaconDB := db
  genesisTime := 0
  finalizedCheckpt := finalized
  justifiedCheckpt := justified
  bestJustifiedCheckpt := best
  initSyncState := []

/-- A context that has not been cancelled. -/
def background : Context := { err := none }

/-- A store whose block at root 1 (slot 5) names as parent the block at root 2 (slot 10). -/
def decreasingService : Service :=
  sampleService
    (sampleDB [(sampleRoot 1, { Slot := 5, ParentRoot := sampleRoot 2 }),
               (sampleRoot 2, { Slot := 10, ParentRoot := sampleRoot 0 })] [])
    { Epoch := 0, Root := sampleRoot 2 } { Epoch := 0, Root := sampleRoot 2 }
    { Epoch := 0, Root := sampleRoot 2 }

/-- A store with one block, at slot 7, under the all-zero root. -/
def zeroRootService : Service :=
  sampleService (sampleDB [(sampleRoot 0, { Slot := 7, ParentRoot := sampleRoot 0 })] [])
    { Epoch := 0, Root := sampleRoot 0 } { Epoch := 0, Root := sampleRoot 0 }
    { Epoch := 0, Root := sampleRoot 0 }

/-- A parameter set with 12-second slots, 32 slots per epoch and a safe window of 8 slots. -/
def sampleConfig : BeaconChainConfig where
  SecondsPerSlot := 12
  SlotsPerEpoch := 32
  SafeSlotsToUpdateJustified := 8
  MinGenesisActiveValidatorCount := 64
  MaxEffectiveBalance := 32000000000
  FarFutureEpoch := 2 ^ 64 - 1
  secondsPerSlot_pos := by decide
  slotsPerEpoch_pos := by decide

/-- A stand-in for the signing root of a block: 32 bytes, each the block's slot modulo 256. -/
def sampleSigningRoot (h : Option SignedBeaconBlock) : Except Error Bytes32 :=
  match h with
  | none => Except.error (Error.ssz 0)
  | some signed =>
    match signed.Block with
    | none => Except.error (Error.ssz 1)
    | some b => Except.ok (ToBytes32 (sampleRoot (b.Slot % 256)))

/-- An environment at wall-clock second `now`, with the cache flag as given and a slot-time check
that accepts every block. -/
def sampleEnv (now : Int) (cacheFlag : Bool) : Env where
  cfg := sampleConfig
  InitSyncCacheState := cacheFlag
  now := now
  VerifySlotTime := fun _ _ => none
  SigningRoot := sampleSigningRoot

/-- Scenario S3: the justified checkpoint is (10, J) with J (root 1) at slot 320; the candidate N
(root 3) at slot 352 descends from K (root 2), a sibling of J at slot 320. -/
def bouncingService : Service :=
  sampleService
    (sampleDB [(sampleRoot 1, { Slot := 320, ParentRoot := sampleRoot 0 }),
               (sampleRoot 2, { Slot := 320, ParentRoot := sampleRoot 0 }),
               (sampleRoot 3, { Slot := 352, ParentRoot := sampleRoot 2 })] [])
    { Epoch := 9, Root := sampleRoot 0 } { Epoch := 10, Root := sampleRoot 1 }
    { Epoch := 10, Root := sampleRoot 1 }

/-- A state at slot 40 whose justified and finalized checkpoints are (1, root 1). -/
def sampleState : BeaconState where
  GenesisTime := 0
  Slot := 40
  Validators := []
  CurrentJustifiedCheckpoint := { Epoch := 1, Root := sampleRoot 1 }
  FinalizedCheckpoint := { Epoch := 1, Root := sampleRoot 1 }

/-- Scenario S2: the finalized checkpoint is (1, F) with F (root 1) at slot 32; the parent Q
(root 3) at slot 40 descends from F2 (root 2), a sibling of F at slot 32. The state of Q is
stored. -/
def forkedService : Service :=
  sampleService
    (sampleDB [(sampleRoot 1, { Slot := 32, ParentRoot := sampleRoot 0 }),
               (sampleRoot 2, { Slot := 32, ParentRoot := sampleRoot 0 }),
               (sampleRoot 3, { Slot := 40, ParentRoot := sampleRoot 2 })]
      [(sampleRoot 3, sampleState)])
    { Epoch := 1, Root := sampleRoot 1 } { Epoch := 1, Root := sampleRoot 1 }
    { Epoch := 1, Root := sampleRoot 1 }

/-- A service whose finalized checkpoint (1, F) names a root under which the store holds no
block; the store holds the block P (root 3, slot 40) and its state. -/
def unanchoredService : Service :=
  sampleService
    (sampleDB [(sampleRoot 3, { Slot := 40, ParentRoot := sampleRoot 2 })]
      [(sampleRoot 3, sampleState)])
    { Epoch := 1, Root := sampleRoot 1 } { Epoch := 1, Root := sampleRoot 1 }
    { Epoch := 1, Root := sampleRoot 1 }

/-- A post-state whose current justified checkpoint is the one given. -/
def postStateWith (cp : Checkpoint) : BeaconState where
  GenesisTime := 0
  Slot := 361
  Validators := []
  CurrentJustifiedCheckpoint := cp
  FinalizedCheckpoint := { Epoch := 9, Root := sampleRoot 0 }

/-- The service of scenario S3 once `updateJustified` has run on the candidate (11, N) outside
the window: the best justified checkpoint and the store's justified checkpoint are (11, N). -/
def bouncedService : Service :=
  { bouncingService with
    bestJustifiedCheckpt := { Epoch := 11, Root := sampleRoot 3 }
    beaconDB := { bouncingService.beaconDB with
      justifiedCheckpoint := { Epoch := 11, Root := sampleRoot 3 } } }

/-- The service of scenario S3 with the best justified checkpoint replaced. -/
def bestReplacedService (cp : Checkpoint) : Service :=
  { bouncingService with bestJustifiedCheckpt := cp }

/-- The service of scenario S3 over a store that refuses to save a justified checkpoint. -/
def readOnlyService : Service :=
  { bouncingService with
    beaconDB := { bouncingService.beaconDB with
      fault := fun c =>
        match c with
        | DBCall.SaveJustifiedCheckpoint _ => some (Error.store 1)
        | _ => none } }

/-- A state at the given slot. -/
def stateAt (slot : Nat) : BeaconState where
  GenesisTime := 0
  Slot := slot
  Validators := []
  CurrentJustifiedCheckpoint := { Epoch := 0, Root := sampleRoot 0 }
  FinalizedCheckpoint := { Epoch := 0, Root := sampleRoot 0 }

/-- A store with blocks at slots 1 to 5, each under the root made of its slot number, and the
state of each; the finalized root is that of slot 3 and the head block is the block of slot 4. -/
def pruningService : Service :=
  sampleService
    { sampleDB
        [(sampleRoot 1, { Slot := 1, ParentRoot := sampleRoot 0 }),
         (sampleRoot 2, { Slot := 2, ParentRoot := sampleRoot 1 }),
         (sampleRoot 3, { Slot := 3, ParentRoot := sampleRoot 2 }),
         (sampleRoot 4, { Slot := 4, ParentRoot := sampleRoot 3 }),
         (sampleRoot 5, { Slot := 5, ParentRoot := sampleRoot 3 })]
        [(sampleRoot 1, stateAt 1), (sampleRoot 2, stateAt 2), (sampleRoot 3, stateAt 3),
         (sampleRoot 4, stateAt 4), (sampleRoot 5, stateAt 5)] with
      headBlock := some { Block := some { Slot := 4, ParentRoot := sampleRoot 3 } }
      finalizedCheckpoint := { Epoch := 0, Root := sampleRoot 3 } }
    { Epoch := 0, Root := sampleRoot 3 } { Epoch := 0, Root := sampleRoot 3 }
    { Epoch := 0, Root := sampleRoot 3 }

/-- The service `pruningService` once the states of slots 1 and 2 are deleted. -/
def prunedService : Service :=
  { pruningService with
    beaconDB := { pruningService.beaconDB with
      states := [(ToBytes32 (sampleRoot 3), stateAt 3), (ToBytes32 (sampleRoot 4), stateAt 4),
        (ToBytes32 (sampleRoot 5), stateAt 5)] } }

/-- Scenario S6: block A at slot 10 under root 1 and its child B at slot 12 under root 2. -/
def skippedSlotService : Service :=
  sampleService
    (sampleDB [(sampleRoot 1, { Slot := 10, ParentRoot := sampleRoot 0 }),
               (sampleRoot 2, { Slot := 12, ParentRoot := sampleRoot 1 })] [])
    { Epoch := 0, Root := sampleRoot 1 } { Epoch := 0, Root := sampleRoot 1 }
    { Epoch := 0, Root := sampleRoot 1 }

/-- Whether the store holds at least one block at the slot. -/
def holdsBlockAt (db : BeaconDB) (slot : Nat) : Bool :=
  db.blocks.any (fun p => inSlotRange slot slot p.2)

/-- The roots of the stored blocks whose slot lies in the inclusive range. -/
def rootsInSlotRange (db : BeaconDB) (lo hi : Nat) : List Bytes32 :=
  (db.blocks.filter (fun p => inSlotRange lo hi p.2)).map Prod.fst

/-- The slot range that `rmStatesOlderThanLastFinalized` passes to `BlockRoots`: the outcome of
its two loops, of the genesis guard and of the guard on an end slot below the start slot. -/
def prunedRange (db : BeaconDB) (startSlot endSlot : Nat) : Except Error (Nat × Nat) :=
  match skipStartSlot db startSlot startSlot with
  | Except.error e => Except.error e
  | Except.ok startSlot1 =>
    match skipEndSlot db endSlot endSlot with
    | Except.error e => Except.error e
    | Except.ok endSlot1 =>
      let startSlot2 := if startSlot1 = 0 then startSlot1 + 1 else startSlot1
      let endSlot2 := if endSlot1 < startSlot2 then startSlot2 else endSlot1
      Except.ok (startSlot2, endSlot2)

/-- The roots left by `filterBlockRoots` when the store's finalized root is `fRoot` and the
signing root of its head block is `hRoot`. -/
def withoutFinalizedAndHead (fRoot : Bytes) (hRoot : Bytes32) (roots : List Bytes32) :
    List Bytes32 :=
  roots.filter (fun root => !(decide (root.val = fRoot) || decide (root.val = hRoot.val)))

/-- Scenario S5: blocks at slots 97, 120, 150 and 198, each under the root made of its slot
number, with the state of each; no block at slots 98 to 100 nor at 199 and 200. The finalized
root is that of slot 198 and the head block is the block of slot 150. -/
def skipSlotPruningService : Service :=
  sampleService
    { sampleDB
        [(sampleRoot 97, { Slot := 97, ParentRoot := sampleRoot 96 }),
         (sampleRoot 120, { Slot := 120, ParentRoot := sampleRoot 97 }),
         (sampleRoot 150, { Slot := 150, ParentRoot := sampleRoot 120 }),
         (sampleRoot 198, { Slot := 198, ParentRoot := sampleRoot 150 })]
        [(sampleRoot 97, stateAt 97), (sampleRoot 120, stateAt 120),
         (sampleRoot 150, stateAt 150), (sampleRoot 198, stateAt 198)] with
      headBlock := some { Block := some { Slot := 150, ParentRoot := sampleRoot 120 } }
      finalizedCheckpoint := { Epoch := 6, Root := sampleRoot 198 } }
    { Epoch := 6, Root := sampleRoot 198 } { Epoch := 6, Root := sampleRoot 198 }
    { Epoch := 6, Root := sampleRoot 198 }

/-- The service `pruningService` over a store that refuses the request for block roots. -/
def unreadablePruningService : Service :=
  { pruningService with
    beaconDB := { pruningService.beaconDB with
      fault := fun c =>
        match c with
        | DBCall.BlockRoots _ _ => some (Error.store 2)
        | _ => none } }

/-- The last steps of `rmStatesOlderThanLastFinalized`, from the `BlockRoots` request on, for the
slot range `[lo, hi]`. -/
def deleteStatesInRange (env : Env) (s : Service) (lo hi : Nat) : Service × Option Error :=
  match s.beaconDB.BlockRoots lo hi with
  | Except.error e => (s, some e)
  | Except.ok roots =>
    match filterBlockRoots env s roots with
    | Except.error e => (s, some e)
    | Except.ok filtered =>
      match s.beaconDB.DeleteStates filtered with
      | (db, some e) => ({ s with beaconDB := db }, some e)
      | (db, none) => ({ s with beaconDB := db }, none)

/-- A store with the genesis block (slot 0, all-zero root) and blocks at slots 1 and 2, each with
its state; the finalized root and the head block are those of slot 2. -/
def genesisPruningService : Service :=
  sampleService
    { sampleDB
        [(sampleRoot 0, { Slot := 0, ParentRoot := sampleRoot 0 }),
         (sampleRoot 1, { Slot := 1, ParentRoot := sampleRoot 0 }),
         (sampleRoot 2, { Slot := 2, ParentRoot := sampleRoot 1 })]
        [(sampleRoot 0, stateAt 0), (sampleRoot 1, stateAt 1), (sampleRoot 2, stateAt 2)] with
      headBlock := some { Block := some { Slot := 2, ParentRoot := sampleRoot 1 } }
      finalizedCheckpoint := { Epoch := 0, Root := sampleRoot 2 } }
    { Epoch := 0, Root := sampleRoot 2 } { Epoch := 0, Root := sampleRoot 2 }
    { Epoch := 0, Root := sampleRoot 2 }

/-- The service `skipSlotPruningService` once the states of slots 97 and 120 are deleted. -/
def skipSlotPrunedService : Service :=
  { skipSlotPruningService with
    beaconDB := { skipSlotPruningService.beaconDB with
      states := [(ToBytes32 (sampleRoot 150), stateAt 150),
        (ToBytes32 (sampleRoot 198), stateAt 198)] } }

/-- The service `pruningService` once the state of slot 1 is deleted. -/
def slotOnePrunedService : Service :=
  { pruningService with
    beaconDB := { pruningService.beaconDB with
      states := [(ToBytes32 (sampleRoot 2), stateAt 2), (ToBytes32 (sampleRoot 3), stateAt 3),
        (ToBytes32 (sampleRoot 4), stateAt 4), (ToBytes32 (sampleRoot 5), stateAt 5)] } }

/-- The service `pruningService` once the state of slot 5 is deleted. -/
def slotFivePrunedService : Service :=
  { pruningService with
    beaconDB := { pruningService.beaconDB with
      states := [(ToBytes32 (sampleRoot 1), stateAt 1), (ToBytes32 (sampleRoot 2), stateAt 2),
        (ToBytes32 (sampleRoot 3), stateAt 3), (ToBytes32 (sampleRoot 4), stateAt 4)] } }

/-- The service `genesisPruningService` once the state of slot 1 is deleted. -/
def genesisPrunedService : Service :=
  { genesisPruningService with
    beaconDB := { genesisPruningService.beaconDB with
      states := [(ToBytes32 (sampleRoot 0), stateAt 0),
        (ToBytes32 (sampleRoot 2), stateAt 2)] } }

/-- The service of scenario S3 with three cached states, at slots 31, 32 and 40. -/
def cachingService : Service :=
  { bouncingService with
    initSyncState := [(ToBytes32 (sampleRoot 1), stateAt 31),
      (ToBytes32 (sampleRoot 2), stateAt 32), (ToBytes32 (sampleRoot 3), stateAt 40)] }

/-- A post-state whose finalized checkpoint is the one given. -/
def postStateFinalizing (cp : Checkpoint) : BeaconState where
  GenesisTime := 0
  Slot := 64
  Validators := []
  CurrentJustifiedCheckpoint := { Epoch := 1, Root := sampleRoot 2 }
  FinalizedCheckpoint := cp

/-- The service `cachingService` once `saveInitState` has run for the finalized checkpoint
(1, root 2): the cached state of root 2 is in the store and the entry of slot 31 is evicted. -/
def cachePrunedService : Service :=
  { cachingService with
    beaconDB := { cachingService.beaconDB with
      states := (ToBytes32 (sampleRoot 2), stateAt 32) :: cachingService.beaconDB.states }
    initSyncState := [(ToBytes32 (sampleRoot 2), stateAt 32),
      (ToBytes32 (sampleRoot 3), stateAt 40)] }

/-- A validator with the given public key and genesis values. -/
def sampleValidator (key : Nat) : Validator where
  PublicKey := [key]
  EffectiveBalance := 32000000000
  ActivationEpoch := 0
  ExitEpoch := 2 ^ 64 - 1
  WithdrawableEpoch := 2 ^ 64 - 1

/-- A post-state with three validators, of public keys 10, 11 and 12. -/
def threeValidatorState : BeaconState where
  GenesisTime := 0
  Slot := 40
  Validators := [sampleValidator 10, sampleValidator 11, sampleValidator 12]
  CurrentJustifiedCheckpoint := { Epoch := 1, Root := sampleRoot 1 }
  FinalizedCheckpoint := { Epoch := 1, Root := sampleRoot 1 }

/-- The method `ancestor` with its work counted: the same walk, returning with the result the
number of calls made (hops) and the number of `beaconDB.Block` reads. -/
def ancestorCounted (s : Service) (ctx : Context) :
    Nat → Bytes → Nat → Option (Except Error Bytes × Nat × Nat)
  | 0, _, _ => none
  | fuel + 1, root, slot =>
    match ctx.err with
    | some e => some (Except.error e, 1, 0)
    | none =>
      match s.beaconDB.Block (ToBytes32 root) with
      | Except.error e =>
        some (Except.error (Error.wrap WrapMsg.couldNotGetAncestorBlock e), 1, 1)
      | Except.ok none => some (Except.error Error.nilBlock, 1, 1)
      | Except.ok (some signed) =>
        match signed.Block with
        | none => some (Except.error Error.nilBlock, 1, 1)
        | some b =>
          if b.Slot < slot then some (Except.ok [], 1, 1)
          else if b.Slot = slot then some (Except.ok root, 1, 1)
          else
            match ancestorCounted s ctx fuel b.ParentRoot slot with
            | none => none
            | some (res, hops, reads) => some (res, hops + 1, reads + 1)

/-- The number of roots on the parent chain from `r` down to the first root whose block has a
slot of at most `slot`, or that names no stored block. -/
inductive ChainLength (s : Service) (slot : Nat) : Bytes → Nat → Prop where
  | last (r : Bytes) : (∀ b : BeaconBlock, blockAt s r = some b → b.Slot ≤ slot) →
      ChainLength s slot r 1
  | link {r : Bytes} {n : Nat} (b : BeaconBlock) :
      blockAt s r = some b → slot < b.Slot → ChainLength s slot b.ParentRoot n →
      ChainLength s slot r (n + 1)

/-- The walk of `ancestor` from `r` towards `slot`, under the context `ctx`, makes a call on the
root `x` and reads the store there: `x` is `r`, or the parent root of a block that the walk read
with a slot above `slot`. -/
inductive Visits (s : Service) (ctx : Context) (slot : Nat) : Bytes → Bytes → Prop where
  | start (r : Bytes) : ctx.err = none → Visits s ctx slot r r
  | hop {r x : Bytes} (signed : SignedBeaconBlock) (b : BeaconBlock) :
      ctx.err = none → s.beaconDB.Block (ToBytes32 r) = Except.ok (some signed) →
      signed.Block = some b → slot < b.Slot → Visits s ctx slot b.ParentRoot x →
      Visits s ctx slot r x

/-- The store answers the read of the root with no block: a nil signed block, or a signed block
whose inner block is nil. -/
def ResolvesToNoBlock (s : Service) (x : Bytes) : Prop :=
  s.beaconDB.Block (ToBytes32 x) = Except.ok none ∨
    ∃ signed : SignedBeaconBlock,
      s.beaconDB.Block (ToBytes32 x) = Except.ok (some signed) ∧ signed.Block = none

/-- A store whose block at slot 11 (root 3) has as parent the block B at slot 12 (root 2), whose
parent is the block A at slot 10 (root 1). -/
def risingService : Service :=
  sampleService
    (sampleDB [(sampleRoot 1, { Slot := 10, ParentRoot := sampleRoot 0 }),
               (sampleRoot 2, { Slot := 12, ParentRoot := sampleRoot 1 }),
               (sampleRoot 3, { Slot := 11, ParentRoot := sampleRoot 2 })] [])
    { Epoch := 0, Root := sampleRoot 1 } { Epoch := 0, Root := sampleRoot 1 }
    { Epoch := 0, Root := sampleRoot 1 }

/-- A context that has been cancelled. -/
def cancelled : Context := { err := some (Error.context 0) }

/-- The service of scenario S6 over a store that refuses to read blocks. -/
def unreadableService : Service :=
  { skippedSlotService with
    beaconDB := { skippedSlotService.beaconDB with
      fault := fun c =>
        match c with
        | DBCall.Block _ => some (Error.store 3)
        | _ => none } }

/-- The service of scenario S3 with a justified checkpoint (10, root 9) whose root names no
stored block. -/
def lostJustifiedService : Service :=
  { bouncingService with justifiedCheckpt := { Epoch := 10, Root := sampleRoot 9 } }

/-! ## The evaluator `validatorsAreActive` of `endtoend/evaluators/validator.go` -/

/-- The four counters of `validatorsAreActive`. -/
structure WrongCounts where
  effBalanceLowCount : Nat
  activeEpochWrongCount : Nat
  exitEpochWrongCount : Nat
  withdrawEpochWrongCount : Nat
  deriving DecidableEq, Repr

/-- One round of the loop of `validatorsAreActive`: each of the four tests that the validator
fails adds one to its counter. -/
def countWrong (cfg : BeaconChainConfig) (counts : WrongCounts) (item : Validator) :
    WrongCounts :=
  let c1 : WrongCounts :=
    if item.EffectiveBalance < cfg.MaxEffectiveBalance then
      { counts with effBalanceLowCount := counts.effBalanceLowCount + 1 }
    else counts
  let c2 : WrongCounts :=
    if item.ActivationEpoch ≠ 0 then
      { c1 with activeEpochWrongCount := c1.activeEpochWrongCount + 1 }
    else c1
  let c3 : WrongCounts :=
    if item.ExitEpoch ≠ cfg.FarFutureEpoch then
      { c2 with exitEpochWrongCount := c2.exitEpochWrongCount + 1 }
    else c2
  if item.WithdrawableEpoch ≠ cfg.FarFutureEpoch then
    { c3 with withdrawEpochWrongCount := c3.withdrawEpochWrongCount + 1 }
  else c3

/-- The function `validatorsAreActive`, given the client's answer to `ListValidators`. The last
test of the chain of `else if` reads `activeEpochWrongCount`, as in the source. -/
def validatorsAreActive (cfg : BeaconChainConfig) (answer : Except Error (List Validator)) :
    Option Error :=
  match answer with
  | Except.error err => errorsWrap (some err) WrapMsg.failedToGetValidators
  | Except.ok validatorList =>
    let expectedCount := cfg.MinGenesisActiveValidatorCount
    let receivedCount := validatorList.length
    if expectedCount ≠ receivedCount then
      some (Error.validatorCount expectedCount receivedCount)
    else
      let counts := validatorList.foldl (countWrong cfg)
        { effBalanceLowCount := 0, activeEpochWrongCount := 0, exitEpochWrongCount := 0,
          withdrawEpochWrongCount := 0 }
      if counts.effBalanceLowCount > 0 then
        some (Error.effectiveBalanceLow counts.effBalanceLowCount cfg.MaxEffectiveBalance)
      else if counts.activeEpochWrongCount > 0 then
        some (Error.activationEpochWrong counts.activeEpochWrongCount)
      else if counts.exitEpochWrongCount > 0 then
        some (Error.exitEpochWrong counts.exitEpochWrongCount)
      else if counts.activeEpochWrongCount > 0 then
        some (Error.withdrawableEpochWrong counts.activeEpochWrongCount)
      else none

/-- A validator as `sampleValidator`, but withdrawable at epoch 5. -/
def withdrawableValidator (key : Nat) : Validator :=
  { sampleValidator key with WithdrawableEpoch := 5 }

/-- Sixty-three genesis validators followed by one that is withdrawable at epoch 5. -/
def oneWithdrawableList : List Validator :=
  List.replicate 63 (sampleValidator 1) ++ [withdrawableValidator 2]

/-! ## Lemmas -/

/-- A value found under a key is an entry of the list. -/
theorem lookup_mem {β : Type} {k : Bytes32} {l : List (Bytes32 × β)} {v : β}
    (h : lookup k l = some v) : (k, v) ∈ l := by
  induction l with
  | nil => simp [lookup] at h
  | cons hd tl ih =>
    obtain ⟨k0, v0⟩ := hd
    unfold lookup at h
    by_cases hk : k0 = k
    · rw [if_pos hk] at h
      injection h with h
      subst hk h
      exact List.mem_cons_self _ _
    · rw [if_neg hk] at h
      exact List.mem_cons_of_mem _ (ih h)

/-- The test `slotsIncreaseCheck` is sound. -/
theorem slotsIncrease_of_check {s : Service} (h : slotsIncreaseCheck s = true) :
    SlotsIncrease s := by
  intro r b p hb hp
  unfold blockAt at hb
  split at hb
  · cases hb
  · rename_i signed hs
    have hmem := lookup_mem hs
    have := (List.all_eq_true.mp h) _ hmem
    simp only [hb, hp] at this
    exact of_decide_eq_true this

/-- Deleting the entries keyed by `roots` leaves the entry of every other key as it was. -/
theorem lookup_filter_not_mem {β : Type} (roots : List Bytes32) (k : Bytes32)
    (hk : k ∉ roots) (l : List (Bytes32 × β)) :
    lookup k (l.filter (fun p => decide (p.1 ∉ roots))) = lookup k l := by
  induction l with
  | nil => rfl
  | cons hd tl ih =>
    obtain ⟨k0, v0⟩ := hd
    rw [List.filter_cons]
    by_cases hmem : k0 ∈ roots
    · have hne : k0 ≠ k := fun heq => hk (heq ▸ hmem)
      have hd : ¬ (decide ((k0, v0).1 ∉ roots) = true) := by simpa using hmem
      rw [if_neg hd, ih]
      simp only [lookup, if_neg hne]
    · have hd : decide ((k0, v0).1 ∉ roots) = true := by simpa using hmem
      rw [if_pos hd]
      simp only [lookup, ih]

/-- A block read from the store with success is the block stored under that root. -/
theorem blockAt_of_Block {s : Service} {root : Bytes} {signed : SignedBeaconBlock}
    {b : BeaconBlock} (h : s.beaconDB.Block (ToBytes32 root) = Except.ok (some signed))
    (hb : signed.Block = some b) : blockAt s root = some b := by
  unfold BeaconDB.Block at h
  unfold blockAt
  split at h
  · cases h
  · injection h with h
    rw [h]
    exact hb

/-- One unfolding of `ancestor` at a root whose block is read with success. -/
theorem ancestor_succ_of_block {s : Service} {ctx : Context} {fuel : Nat} {root : Bytes}
    {slot : Nat} {signed : SignedBeaconBlock} {b : BeaconBlock}
    (hc : ctx.err = none) (h : s.beaconDB.Block (ToBytes32 root) = Except.ok (some signed))
    (hb : signed.Block = some b) :
    ancestor s ctx (fuel + 1) root slot =
      if b.Slot < slot then some (Except.ok [])
      else if b.Slot = slot then some (Except.ok root)
      else ancestor s ctx fuel b.ParentRoot slot := by
  simp only [ancestor, hc, h, hb]

/-- A walk that returns a value read a block at its starting root. -/
theorem ancestor_ok_inv {s : Service} {ctx : Context} {fuel : Nat} {root : Bytes}
    {slot : Nat} {x : Bytes} (h : ancestor s ctx (fuel + 1) root slot = some (Except.ok x)) :
    ctx.err = none ∧ ∃ signed b, s.beaconDB.Block (ToBytes32 root) = Except.ok (some signed) ∧
      signed.Block = some b := by
  unfold ancestor at h
  split at h
  · cases h
  · rename_i hc
    refine ⟨hc, ?_⟩
    split at h
    · cases h
    · cases h
    · rename_i signed hs
      split at h
      · cases h
      · rename_i b hb
        exact ⟨signed, b, hs, hb⟩

/-- The walk reads the store only: two services over the same store give the same walk. -/
theorem ancestor_congr_db {s1 s2 : Service} (h : s1.beaconDB = s2.beaconDB) (ctx : Context)
    (fuel : Nat) (root : Bytes) (slot : Nat) :
    ancestor s1 ctx fuel root slot = ancestor s2 ctx fuel root slot := by
  induction fuel generalizing root with
  | zero => rfl
  | succ n ih =>
    unfold ancestor
    rw [h]
    simp only [ih]

/-- A larger recursion budget does not change the result of a walk that ended. -/
theorem ancestor_fuel_mono {s : Service} {ctx : Context} {fuel : Nat} {root : Bytes}
    {slot : Nat} {res : Except Error Bytes} (h : ancestor s ctx fuel root slot = some res)
    (extra : Nat) : ancestor s ctx (fuel + extra) root slot = some res := by
  induction fuel generalizing root with
  | zero => simp [ancestor] at h
  | succ n ih =>
    rw [Nat.add_right_comm]
    unfold ancestor at h ⊢
    cases hc : ctx.err with
    | some e =>
      simp only [hc] at h ⊢
      exact h
    | none =>
      simp only [hc] at h ⊢
      cases hb : s.beaconDB.Block (ToBytes32 root) with
      | error e =>
        simp only [hb] at h ⊢
        exact h
      | ok o =>
        cases o with
        | none =>
          simp only [hb] at h ⊢
          exact h
        | some signed =>
          simp only [hb] at h ⊢
          cases hs : signed.Block with
          | none =>
            simp only [hs] at h ⊢
            exact h
          | some b =>
            simp only [hs] at h ⊢
            by_cases h1 : b.Slot < slot
            · simp only [h1, if_true] at h ⊢
              exact h
            · by_cases h2 : b.Slot = slot
              · simp only [h1, h2, if_true, if_false] at h ⊢
                exact h
              · simp only [h1, h2, if_false] at h ⊢
                exact ih h

/-- Under increasing slots, every stored block reached through the parent root of a stored block
has a strictly smaller slot than that block. -/
theorem slot_lt_of_reaches_parent {s : Service} (hm : SlotsIncrease s) {p x : Bytes}
    (hr : Reaches s p x) :
    ∀ (r : Bytes) (b : BeaconBlock), blockAt s r = some b → b.ParentRoot = p →
      ∀ bx : BeaconBlock, blockAt s x = some bx → bx.Slot < b.Slot := by
  induction hr with
  | refl p =>
    intro r b hb hp bx hbx
    subst hp
    exact hm r b bx hb hbx
  | step b1 hb1 _ ih =>
    intro r b hb hp bx hbx
    subst hp
    have h1 := ih _ b1 hb1 rfl bx hbx
    have h2 := hm r b b1 hb hb1
    omega

/-- The answer of `shouldUpdateCurrentJustified` depends on the service through its store, its
genesis time and its justified checkpoint only. -/
theorem shouldUpdateCurrentJustified_congr (env : Env) {s1 s2 : Service}
    (hdb : s1.beaconDB = s2.beaconDB) (hg : s1.genesisTime = s2.genesisTime)
    (hj : s1.justifiedCheckpt = s2.justifiedCheckpt) (ctx : Context) (fuel : Nat)
    (cp : Checkpoint) :
    shouldUpdateCurrentJustified env s1 ctx fuel cp
      = shouldUpdateCurrentJustified env s2 ctx fuel cp := by
  unfold shouldUpdateCurrentJustified currentSlot
  rw [hdb, hg, hj]
  simp only [ancestor_congr_db hdb]

/-- The service after the first step of `updateJustified`. -/
theorem best_step_fields (s : Service) (cp : Checkpoint) :
    let s1 : Service := if cp.Epoch > s.bestJustifiedCheckpt.Epoch then
      { s with bestJustifiedCheckpt := cp } else s
    s1.beaconDB = s.beaconDB ∧ s1.genesisTime = s.genesisTime ∧
      s1.justifiedCheckpt = s.justifiedCheckpt ∧ s1.finalizedCheckpt = s.finalizedCheckpt ∧
      s1.initSyncState = s.initSyncState ∧
      s1.bestJustifiedCheckpt
        = (if cp.Epoch > s.bestJustifiedCheckpt.Epoch then cp else s.bestJustifiedCheckpt) := by
  intro s1
  by_cases h : cp.Epoch > s.bestJustifiedCheckpt.Epoch
  · simp [s1, h]
  · simp [s1, h]

/-- Every outcome of `updateJustified`, with or without an error: the best justified checkpoint
is replaced exactly when the post-state's epoch is greater; the finalized checkpoint, the
init-sync cache and the genesis time are kept; and either `shouldUpdateCurrentJustified` failed,
its error is returned and the justified checkpoint and the store are kept, or it answered and
the justified checkpoint follows the answer. -/
theorem updateJustified_outcome (env : Env) (s : Service) (ctx : Context) (fuel : Nat)
    (state : BeaconState) (s2 : Service) (err : Option Error)
    (h : updateJustified env s ctx fuel state = some (s2, err)) :
    s2.bestJustifiedCheckpt
        = (if state.CurrentJustifiedCheckpoint.Epoch > s.bestJustifiedCheckpt.Epoch then
            state.CurrentJustifiedCheckpoint else s.bestJustifiedCheckpt) ∧
      s2.finalizedCheckpt = s.finalizedCheckpt ∧
      s2.initSyncState = s.initSyncState ∧
      s2.genesisTime = s.genesisTime ∧
      ((∃ e : Error,
          shouldUpdateCurrentJustified env s ctx fuel state.CurrentJustifiedCheckpoint
            = some (Except.error e) ∧
          err = some e ∧ s2.justifiedCheckpt = s.justifiedCheckpt ∧
          s2.beaconDB = s.beaconDB) ∨
       (∃ canUpdate : Bool,
          shouldUpdateCurrentJustified env s ctx fuel state.CurrentJustifiedCheckpoint
            = some (Except.ok canUpdate) ∧
          s2.justifiedCheckpt
            = (if canUpdate then state.CurrentJustifiedCheckpoint
                else s.justifiedCheckpt))) := by
  obtain ⟨f1, f2, f3, f4, f5, f6⟩ := best_step_fields s state.CurrentJustifiedCheckpoint
  unfold updateJustified at h
  simp only [] at h
  rw [shouldUpdateCurrentJustified_congr env f1 f2 f3] at h
  generalize (if state.CurrentJustifiedCheckpoint.Epoch > s.bestJustifiedCheckpt.Epoch then
      ({ s with bestJustifiedCheckpt := state.CurrentJustifiedCheckpoint } : Service)
    else s) = s1 at h f1 f2 f3 f4 f5 f6
  rw [← f6, ← f4, ← f5, ← f2, ← f3, ← f1]
  rcases hsu : shouldUpdateCurrentJustified env s ctx fuel state.CurrentJustifiedCheckpoint
    with _ | (e | canUpdate)
  · rw [hsu] at h
    cases h
  · rw [hsu] at h
    simp only [Option.some.injEq, Prod.mk.injEq] at h
    obtain ⟨h1, h2⟩ := h
    subst h1 h2
    exact ⟨rfl, rfl, rfl, rfl, Or.inl ⟨e, rfl, rfl, rfl, rfl⟩⟩
  · rw [hsu] at h
    have fin : ∀ (db : BeaconDB) (e1 : Option Error),
        some (({ (if canUpdate = true then
            ({ s1 with justifiedCheckpt := state.CurrentJustifiedCheckpoint } : Service)
            else s1) with beaconDB := db } : Service), e1) = some (s2, err) →
        s2.bestJustifiedCheckpt = s1.bestJustifiedCheckpt ∧
          s2.finalizedCheckpt = s1.finalizedCheckpt ∧
          s2.initSyncState = s1.initSyncState ∧
          s2.genesisTime = s1.genesisTime ∧
          ((∃ e : Error, some (Except.ok canUpdate) = some (Except.error e) ∧
              err = some e ∧ s2.justifiedCheckpt = s1.justifiedCheckpt ∧
              s2.beaconDB = s1.beaconDB) ∨
            (∃ c : Bool, some (Except.ok canUpdate) = some (Except.ok (ε := Error) c) ∧
              s2.justifiedCheckpt
                = (if c then state.CurrentJustifiedCheckpoint else s1.justifiedCheckpt))) := by
      intro db e1 heq
      simp only [Option.some.injEq, Prod.mk.injEq] at heq
      obtain ⟨h1, _⟩ := heq
      subst h1
      cases canUpdate
      · exact ⟨rfl, rfl, rfl, rfl, Or.inr ⟨false, rfl, rfl⟩⟩
      · exact ⟨rfl, rfl, rfl, rfl, Or.inr ⟨true, rfl, rfl⟩⟩
    simp only [] at h
    split at h
    · split at h
      · exact fin _ _ h
      · exact fin _ _ h
    · exact fin _ _ h

/-- What `filterBlockRoots` returns: the given roots without those equal to the store's finalized
root or to the signing root of the store's head block. -/
theorem filterBlockRoots_ok {env : Env} {s : Service} {roots filtered : List Bytes32}
    (h : filterBlockRoots env s roots = Except.ok filtered) :
    ∃ hRoot : Bytes32, env.SigningRoot s.beaconDB.headBlock = Except.ok hRoot ∧
      s.beaconDB.fault DBCall.FinalizedCheckpoint = none ∧
      s.beaconDB.fault DBCall.HeadBlock = none ∧
      filtered = roots.filter (fun root =>
        !(decide (root.val = s.beaconDB.finalizedCheckpoint.Root) ||
          decide (root.val = hRoot.val))) := by
  unfold filterBlockRoots BeaconDB.FinalizedCheckpoint BeaconDB.HeadBlock at h
  cases hf : s.beaconDB.fault DBCall.FinalizedCheckpoint with
  | some e => simp [hf] at h
  | none =>
    cases hh : s.beaconDB.fault DBCall.HeadBlock with
    | some e => simp [hf, hh] at h
    | none =>
      cases hs : env.SigningRoot s.beaconDB.headBlock with
      | error e => simp [hf, hh, hs] at h
      | ok hRoot =>
        simp only [hf, hh, hs] at h
        injection h with h
        exact ⟨hRoot, rfl, rfl, rfl, h.symm⟩

/-- What a call of `rmStatesOlderThanLastFinalized` without error did: it deleted the states
keyed by the block roots of one slot range, less the finalized root and the head root. -/
theorem rmStates_ok {env : Env} {s s2 : Service} {startSlot endSlot : Nat}
    (h : rmStatesOlderThanLastFinalized env s startSlot endSlot = (s2, none)) :
    ∃ (startSlot1 endSlot1 : Nat) (roots filtered : List Bytes32),
      skipStartSlot s.beaconDB startSlot startSlot = Except.ok startSlot1 ∧
      skipEndSlot s.beaconDB endSlot endSlot = Except.ok endSlot1 ∧
      s.beaconDB.BlockRoots (if startSlot1 = 0 then startSlot1 + 1 else startSlot1)
          (if endSlot1 < (if startSlot1 = 0 then startSlot1 + 1 else startSlot1) then
            (if startSlot1 = 0 then startSlot1 + 1 else startSlot1) else endSlot1)
        = Except.ok roots ∧
      filterBlockRoots env s roots = Except.ok filtered ∧
      s2 = { s with beaconDB := { s.beaconDB with
        states := s.beaconDB.states.filter (fun p => decide (p.1 ∉ filtered)) } } := by
  unfold rmStatesOlderThanLastFinalized at h
  split at h
  · cases h
  · rename_i startSlot1 h1
    split at h
    · cases h
    · rename_i endSlot1 h2
      simp only [] at h
      split at h
      · cases h
      · rename_i roots h3
        split at h
        · cases h
        · rename_i filtered h4
          refine ⟨startSlot1, endSlot1, roots, filtered, h1, h2, h3, h4, ?_⟩
          unfold BeaconDB.DeleteStates at h
          cases hd : s.beaconDB.fault (DBCall.DeleteStates filtered) with
          | some e => simp [hd] at h
          | none =>
            simp only [hd] at h
            injection h with h _
            exact h.symm

/-- When the finalized root resolves to a stored block, every block that `getBlockPreState`
accepts has, at the finalized block's slot, an ancestor equal to `finalizedCheckpt.Root`. -/
theorem getBlockPreState_descends_when_anchored (env : Env) (s : Service) (ctx : Context)
    (fuel : Nat) (b : BeaconBlock) (preState : BeaconState)
    (finalizedSigned : SignedBeaconBlock) (finalizedBlk : BeaconBlock)
    (hfin : s.beaconDB.Block (ToBytes32 s.finalizedCheckpt.Root)
      = Except.ok (some finalizedSigned))
    (hfinBlock : finalizedSigned.Block = some finalizedBlk)
    (h : getBlockPreState env s ctx fuel b = some (Except.ok preState)) :
    ancestor s ctx fuel (ToBytes32 b.ParentRoot).val finalizedBlk.Slot
      = some (Except.ok s.finalizedCheckpt.Root) := by
  unfold getBlockPreState at h
  split at h
  · cases h
  · split at h
    · cases h
    · split at h
      · cases h
      · cases h
      · rename_i hv
        unfold verifyBlkDescendant at hv
        simp only [hfin, hfinBlock] at hv
        split at hv
        · cases hv
        · simp [errorsWrap] at hv
        · rename_i a ha
          by_cases hne : a ≠ s.finalizedCheckpt.Root
          · rw [if_pos hne] at hv
            cases hv
          · rw [ha, not_not.mp hne]

/-- A filtered list is non-empty exactly when some element passes the test. -/
theorem filter_length_pos_iff_any {α : Type} (p : α → Bool) (l : List α) :
    (l.filter p).length > 0 ↔ l.any p = true := by
  induction l with
  | nil => simp
  | cons a tl ih =>
    rw [List.filter_cons, List.any_cons]
    cases hp : p a
    · simpa using ih
    · simp

/-- The answer of the store to a one-slot query is non-empty exactly when the slot holds a
block. -/
theorem blocks_length_pos_iff {db : BeaconDB} {i : Nat} {b : List SignedBeaconBlock}
    (h : db.Blocks i i = Except.ok b) : b.length > 0 ↔ holdsBlockAt db i = true := by
  unfold BeaconDB.Blocks at h
  split at h
  · cases h
  · injection h with h
    rw [← h, List.length_map]
    exact filter_length_pos_iff_any _ _

/-- The first loop ends on the greatest slot, from `i` down to 1, that holds a block. -/
theorem skipStartSlot_greatest {db : BeaconDB} {d i x g : Nat}
    (h : skipStartSlot db d i = Except.ok x) (h1 : 1 ≤ g) (h2 : g ≤ i)
    (h3 : holdsBlockAt db g = true)
    (h4 : ∀ t : Nat, g < t → t ≤ i → holdsBlockAt db t = false) : x = g := by
  induction i with
  | zero => omega
  | succ n ih =>
    unfold skipStartSlot at h
    split at h
    · cases h
    · rename_i b hb
      have hiff := blocks_length_pos_iff hb
      by_cases hlen : b.length > 0
      · rw [if_pos hlen] at h
        injection h with h
        by_cases hg : g = n + 1
        · omega
        · have := h4 (n + 1) (by omega) (le_refl _)
          rw [hiff.mp hlen] at this
          cases this
      · rw [if_neg hlen] at h
        have hg : g ≠ n + 1 := by
          intro heq
          subst heq
          exact hlen (hiff.mpr h3)
        exact ih h (by omega) (fun t ht1 ht2 => h4 t ht1 (by omega))

/-- The second loop ends one slot below the greatest slot, from `i` down to 1, that holds a
block. -/
theorem skipEndSlot_greatest {db : BeaconDB} {d i x g : Nat}
    (h : skipEndSlot db d i = Except.ok x) (h1 : 1 ≤ g) (h2 : g ≤ i)
    (h3 : holdsBlockAt db g = true)
    (h4 : ∀ t : Nat, g < t → t ≤ i → holdsBlockAt db t = false) : x = g - 1 := by
  induction i with
  | zero => omega
  | succ n ih =>
    unfold skipEndSlot at h
    split at h
    · cases h
    · rename_i b hb
      have hiff := blocks_length_pos_iff hb
      by_cases hlen : b.length > 0
      · rw [if_pos hlen] at h
        injection h with h
        by_cases hg : g = n + 1
        · omega
        · have := h4 (n + 1) (by omega) (le_refl _)
          rw [hiff.mp hlen] at this
          cases this
      · rw [if_neg hlen] at h
        have hg : g ≠ n + 1 := by
          intro heq
          subst heq
          exact hlen (hiff.mpr h3)
        exact ih h (by omega) (fun t ht1 ht2 => h4 t ht1 (by omega))

/-- The range passed to `BlockRoots` starts at slot 1 or later and is not empty. -/
theorem prunedRange_bounds {db : BeaconDB} {startSlot endSlot lo hi : Nat}
    (h : prunedRange db startSlot endSlot = Except.ok (lo, hi)) : 1 ≤ lo ∧ lo ≤ hi := by
  unfold prunedRange at h
  split at h
  · cases h
  · split at h
    · cases h
    · simp only [Except.ok.injEq, Prod.mk.injEq] at h
      obtain ⟨h1, h2⟩ := h
      subst h1 h2
      constructor <;> split_ifs <;> omega

/-- What a call of `rmStatesOlderThanLastFinalized` without error did, in terms of the range it
passed to `BlockRoots`. -/
theorem rmStates_ok_range {env : Env} {s s2 : Service} {startSlot endSlot : Nat}
    (h : rmStatesOlderThanLastFinalized env s startSlot endSlot = (s2, none)) :
    ∃ (lo hi : Nat) (hRoot : Bytes32),
      prunedRange s.beaconDB startSlot endSlot = Except.ok (lo, hi) ∧
      env.SigningRoot s.beaconDB.headBlock = Except.ok hRoot ∧
      s2 = { s with beaconDB := { s.beaconDB with
        states := s.beaconDB.states.filter (fun p => decide (p.1 ∉
          withoutFinalizedAndHead s.beaconDB.finalizedCheckpoint.Root hRoot
            (rootsInSlotRange s.beaconDB lo hi))) } } := by
  obtain ⟨s1, e1, roots, filtered, h1, h2, h3, h4, h5⟩ := rmStates_ok h
  obtain ⟨hRoot, hsr, _, _, hfilt⟩ := filterBlockRoots_ok h4
  refine ⟨if s1 = 0 then s1 + 1 else s1,
    if e1 < (if s1 = 0 then s1 + 1 else s1) then (if s1 = 0 then s1 + 1 else s1) else e1,
    hRoot, ?_, hsr, ?_⟩
  · unfold prunedRange
    simp only [h1, h2]
  · unfold BeaconDB.BlockRoots at h3
    split at h3
    · cases h3
    · injection h3 with h3
      rw [h5, hfilt, ← h3]
      rfl

/-- A call of `rmStatesOlderThanLastFinalized` that returns an error has deleted no state. -/
theorem rmStates_error_keeps_states {env : Env} {s s2 : Service} {startSlot endSlot : Nat}
    {e : Error} (h : rmStatesOlderThanLastFinalized env s startSlot endSlot = (s2, some e)) :
    s2.beaconDB.states = s.beaconDB.states := by
  unfold rmStatesOlderThanLastFinalized at h
  split at h
  · cases h; rfl
  · split at h
    · cases h; rfl
    · simp only [] at h
      split at h
      · cases h; rfl
      · split at h
        · cases h; rfl
        · rename_i filtered _
          unfold BeaconDB.DeleteStates at h
          cases hd : s.beaconDB.fault (DBCall.DeleteStates filtered) with
          | some e1 =>
            simp only [hd] at h
            injection h with h _
            rw [← h]
          | none => simp [hd] at h

/-- The method `rmStatesOlderThanLastFinalized` is the computation of the slot range followed by
the deletion in that range. -/
theorem rmStates_eq_range_then_delete (env : Env) (s : Service) (startSlot endSlot : Nat) :
    rmStatesOlderThanLastFinalized env s startSlot endSlot =
      match prunedRange s.beaconDB startSlot endSlot with
      | Except.error e => (s, some e)
      | Except.ok (lo, hi) => deleteStatesInRange env s lo hi := by
  unfold rmStatesOlderThanLastFinalized prunedRange deleteStatesInRange
  cases skipStartSlot s.beaconDB startSlot startSlot with
  | error e => rfl
  | ok s1 =>
    cases skipEndSlot s.beaconDB endSlot endSlot with
    | error e => rfl
    | ok e1 => rfl

/-- A root that names only blocks of slot 0 is not among the roots of a range starting at slot 1
or later. -/
theorem not_mem_rootsInSlotRange_of_slot_zero {db : BeaconDB} {lo hi : Nat} {k : Bytes32}
    (hlo : 1 ≤ lo)
    (hk : ∀ (sb : SignedBeaconBlock) (b : BeaconBlock),
      (k, sb) ∈ db.blocks → sb.Block = some b → b.Slot = 0) :
    k ∉ rootsInSlotRange db lo hi := by
  intro hmem
  unfold rootsInSlotRange at hmem
  obtain ⟨⟨k1, sb⟩, hp, hk1⟩ := List.mem_map.mp hmem
  simp only at hk1
  subst hk1
  obtain ⟨hin, hrange⟩ := List.mem_filter.mp hp
  unfold inSlotRange at hrange
  simp only at hrange
  split at hrange
  · cases hrange
  · rename_i b hb
    have := hk sb b hin hb
    simp only [Bool.and_eq_true, decide_eq_true_eq] at hrange
    omega

/-- No root lies in a range whose only slot holds no block. -/
theorem rootsInSlotRange_eq_nil {db : BeaconDB} {slot : Nat}
    (h : holdsBlockAt db slot = false) : rootsInSlotRange db slot slot = [] := by
  unfold rootsInSlotRange
  unfold holdsBlockAt at h
  have hnil : db.blocks.filter (fun p => inSlotRange slot slot p.2) = [] := by
    rw [List.filter_eq_nil_iff]
    intro a ha hp
    have hany : db.blocks.any (fun p => inSlotRange slot slot p.2) = true :=
      List.any_eq_true.mpr ⟨a, ha, hp⟩
    rw [h] at hany
    cases hany
  rw [hnil]
  rfl

/-- Deleting the states of no root changes nothing. -/
theorem filter_not_mem_nil {β : Type} (l : List (Bytes32 × β)) :
    l.filter (fun p => decide (p.1 ∉ ([] : List Bytes32))) = l := by
  rw [List.filter_eq_self]
  intro a _
  simp

/-- What the loop of `saveNewValidators` collects while its index stays within the list: the
indices `i, i + 1, ...` and the public keys of the validators at those indices, in that order,
after what was collected before. -/
theorem collectNewValidators_eq (validators : List Validator) (count i : Nat)
    (indices : List Nat) (pubKeys : List Bytes) (h : i + count ≤ validators.length) :
    collectNewValidators validators count i indices pubKeys
      = (indices ++ List.range' i count,
          pubKeys ++ ((validators.drop i).take count).map (fun v => v.PublicKey)) := by
  induction count generalizing i indices pubKeys with
  | zero => simp [collectNewValidators]
  | succ n ih =>
    have hi : i < validators.length := by omega
    unfold collectNewValidators
    rw [List.getElem?_eq_getElem hi]
    simp only
    rw [ih (i + 1) _ _ (by omega), List.range'_succ, List.drop_eq_getElem_cons hi,
      List.take_succ_cons, List.map_cons, List.append_assoc, List.append_assoc]
    rfl

/-- A stored block is what an answered read returns. -/
theorem Block_of_blockAt {s : Service} {root : Bytes} {b : BeaconBlock}
    (hb : blockAt s root = some b)
    (hread : s.beaconDB.fault (DBCall.Block (ToBytes32 root)) = none) :
    ∃ signed : SignedBeaconBlock,
      s.beaconDB.Block (ToBytes32 root) = Except.ok (some signed) ∧ signed.Block = some b := by
  unfold blockAt at hb
  split at hb
  · cases hb
  · rename_i signed hs
    refine ⟨signed, ?_, hb⟩
    unfold BeaconDB.Block
    rw [hread, hs]

/-- Two walks that end, from the same root to the same slot, end alike. -/
theorem ancestor_fuel_det {s : Service} {ctx : Context} {fuel1 fuel2 : Nat} {root : Bytes}
    {slot : Nat} {res1 res2 : Except Error Bytes}
    (h1 : ancestor s ctx fuel1 root slot = some res1)
    (h2 : ancestor s ctx fuel2 root slot = some res2) : res1 = res2 := by
  have e1 := ancestor_fuel_mono h1 fuel2
  have e2 := ancestor_fuel_mono h2 fuel1
  rw [Nat.add_comm] at e2
  rw [e1] at e2
  injection e2

/-- One unfolding of `ancestor` at a root whose block, read with success, lies above the slot
asked for. -/
theorem ancestor_succ_of_above {s : Service} {ctx : Context} {fuel : Nat} {root : Bytes}
    {slot : Nat} {signed : SignedBeaconBlock} {b : BeaconBlock}
    (hc : ctx.err = none) (h : s.beaconDB.Block (ToBytes32 root) = Except.ok (some signed))
    (hb : signed.Block = some b) (habove : slot < b.Slot) :
    ancestor s ctx (fuel + 1) root slot = ancestor s ctx fuel b.ParentRoot slot := by
  rw [ancestor_succ_of_block hc h hb, if_neg (by omega), if_neg (by omega)]

/-- Under increasing slots, with a live context and a store that answers reads, a walk from a
root `r` to a slot at or below that of a block `x` on its chain ends as the walk from `x`. -/
theorem ancestor_of_reaches {s : Service} (hm : SlotsIncrease s) {ctx : Context}
    (hc : ctx.err = none) (hread : ∀ k : Bytes32, s.beaconDB.fault (DBCall.Block k) = none)
    {r x : Bytes} (hr : Reaches s r x) {bx : BeaconBlock} (hbx : blockAt s x = some bx)
    {slot : Nat} (hslot : slot ≤ bx.Slot) {fuel : Nat} {res : Except Error Bytes}
    (h : ancestor s ctx fuel x slot = some res) :
    ∃ fuel1 : Nat, ancestor s ctx fuel1 r slot = some res := by
  induction hr with
  | refl r => exact ⟨fuel, h⟩
  | step b hb hr1 ih =>
    obtain ⟨fuel1, h1⟩ := ih hbx h
    have hlt := slot_lt_of_reaches_parent hm hr1 _ b hb rfl bx hbx
    obtain ⟨signed, hs, hsb⟩ := Block_of_blockAt hb (hread _)
    exact ⟨fuel1 + 1, by rw [ancestor_succ_of_above hc hs hsb (by omega)]; exact h1⟩

/-- The counted walk returns the result of the walk. -/
theorem ancestorCounted_result (s : Service) (ctx : Context) (fuel : Nat) (root : Bytes)
    (slot : Nat) :
    (ancestorCounted s ctx fuel root slot).map (fun out => out.1)
      = ancestor s ctx fuel root slot := by
  induction fuel generalizing root with
  | zero => rfl
  | succ n ih =>
    unfold ancestorCounted ancestor
    cases ctx.err with
    | some e => rfl
    | none =>
      simp only
      cases s.beaconDB.Block (ToBytes32 root) with
      | error e => rfl
      | ok o =>
        cases o with
        | none => rfl
        | some signed =>
          simp only
          cases signed.Block with
          | none => rfl
          | some b =>
            simp only
            by_cases h1 : b.Slot < slot
            · simp only [if_pos h1, Option.map_some']
            · by_cases h2 : b.Slot = slot
              · simp only [if_neg h1, if_pos h2, Option.map_some']
              · simp only [if_neg h1, if_neg h2]
                rw [← ih b.ParentRoot]
                cases ancestorCounted s ctx n b.ParentRoot slot with
                | none => rfl
                | some out => rfl

/-- Under increasing slots the parent chain from any root down to a slot is finite: its length is
at most one more than the distance from the slot of the root's block down to that slot. -/
theorem chainLength_exists {s : Service} (hm : SlotsIncrease s) (slot : Nat) :
    ∀ (k : Nat) (r : Bytes), (∀ b : BeaconBlock, blockAt s r = some b → b.Slot ≤ k) →
      ∃ n : Nat, ChainLength s slot r n ∧ n ≤ k - slot + 1 := by
  intro k
  induction k with
  | zero =>
    intro r hk
    exact ⟨1, ChainLength.last r (fun b hb => by have := hk b hb; omega), by omega⟩
  | succ k ih =>
    intro r hk
    cases hb : blockAt s r with
    | none =>
      exact ⟨1, ChainLength.last r (fun b hb1 => by rw [hb] at hb1; cases hb1), by omega⟩
    | some b =>
      by_cases hle : b.Slot ≤ slot
      · refine ⟨1, ChainLength.last r (fun b1 hb1 => ?_), by omega⟩
        rw [hb] at hb1
        injection hb1 with hb1
        subst hb1
        exact hle
      · have hbk := hk b hb
        obtain ⟨n, hn, hbound⟩ := ih b.ParentRoot (fun p hp => by
          have := hm r b p hb hp
          omega)
        exact ⟨n + 1, ChainLength.link b hb (by omega) hn, by omega⟩

/-- A recursion budget equal to the length of the parent chain is enough for the walk: it ends
within that many calls, with at most one store read per call, and exactly one per call while
the context is live. -/
theorem ancestorCounted_of_chainLength {s : Service} {slot : Nat} {r : Bytes} {n : Nat}
    (hn : ChainLength s slot r n) (ctx : Context) :
    ∃ (res : Except Error Bytes) (hops reads : Nat),
      ancestorCounted s ctx n r slot = some (res, hops, reads) ∧
      hops ≤ n ∧ reads ≤ hops ∧ (ctx.err = none → reads = hops) := by
  induction hn with
  | last r hlast =>
    unfold ancestorCounted
    cases hc : ctx.err with
    | some e => exact ⟨_, 1, 0, rfl, by omega, by omega, fun h => by cases h⟩
    | none =>
      simp only
      cases hs : s.beaconDB.Block (ToBytes32 r) with
      | error e => exact ⟨_, 1, 1, rfl, by omega, by omega, fun _ => rfl⟩
      | ok o =>
        cases o with
        | none => exact ⟨_, 1, 1, rfl, by omega, by omega, fun _ => rfl⟩
        | some signed =>
          simp only
          cases hsb : signed.Block with
          | none => exact ⟨_, 1, 1, rfl, by omega, by omega, fun _ => rfl⟩
          | some b =>
            simp only
            have hle := hlast b (blockAt_of_Block hs hsb)
            by_cases h1 : b.Slot < slot
            · rw [if_pos h1]
              exact ⟨_, 1, 1, rfl, by omega, by omega, fun _ => rfl⟩
            · have h2 : b.Slot = slot := by omega
              rw [if_neg h1, if_pos h2]
              exact ⟨_, 1, 1, rfl, by omega, by omega, fun _ => rfl⟩
  | @link r n b hb habove _ ih =>
    unfold ancestorCounted
    cases hc : ctx.err with
    | some e => exact ⟨_, 1, 0, rfl, by omega, by omega, fun h => by cases h⟩
    | none =>
      simp only
      cases hs : s.beaconDB.Block (ToBytes32 r) with
      | error e => exact ⟨_, 1, 1, rfl, by omega, by omega, fun _ => rfl⟩
      | ok o =>
        cases o with
        | none => exact ⟨_, 1, 1, rfl, by omega, by omega, fun _ => rfl⟩
        | some signed =>
          simp only
          cases hsb : signed.Block with
          | none => exact ⟨_, 1, 1, rfl, by omega, by omega, fun _ => rfl⟩
          | some b1 =>
            simp only
            have heq := blockAt_of_Block hs hsb
            rw [hb] at heq
            injection heq with heq
            subst heq
            rw [if_neg (by omega), if_neg (by omega)]
            obtain ⟨res, hops, reads, hrun, h1, h2, h3⟩ := ih
            rw [hrun]
            exact ⟨res, hops + 1, reads + 1, rfl, by omega, by omega,
              fun h => by rw [h3 (hc ▸ rfl)]⟩

/-- The length of the parent chain from a root down to a slot is unique. -/
theorem chainLength_unique {s : Service} {slot : Nat} {r : Bytes} {n m : Nat}
    (hn : ChainLength s slot r n) (hm : ChainLength s slot r m) : n = m := by
  induction hn generalizing m with
  | last r hlast =>
    cases hm with
    | last => rfl
    | link b hb habove _ =>
      have := hlast b hb
      omega
  | link b hb habove _ ih =>
    cases hm with
    | last _ hlast =>
      have := hlast b hb
      omega
    | link b1 hb1 _ hrest =>
      rw [hb] at hb1
      injection hb1 with hb1
      subst hb1
      rw [ih hrest]

/-- The counters after the loop of `validatorsAreActive`: each has grown by the number of
validators that fail its test. -/
theorem foldl_countWrong (cfg : BeaconChainConfig) (l : List Validator) (c : WrongCounts) :
    l.foldl (countWrong cfg) c =
      { effBalanceLowCount := c.effBalanceLowCount +
          l.countP (fun v => decide (v.EffectiveBalance < cfg.MaxEffectiveBalance)),
        activeEpochWrongCount := c.activeEpochWrongCount +
          l.countP (fun v => decide (v.ActivationEpoch ≠ 0)),
        exitEpochWrongCount := c.exitEpochWrongCount +
          l.countP (fun v => decide (v.ExitEpoch ≠ cfg.FarFutureEpoch)),
        withdrawEpochWrongCount := c.withdrawEpochWrongCount +
          l.countP (fun v => decide (v.WithdrawableEpoch ≠ cfg.FarFutureEpoch)) } := by
  induction l generalizing c with
  | nil => simp
  | cons v tl ih =>
    rw [List.foldl_cons, ih]
    simp only [List.countP_cons]
    unfold countWrong
    by_cases h1 : v.EffectiveBalance < cfg.MaxEffectiveBalance <;>
    by_cases h2 : v.ActivationEpoch = 0 <;>
    by_cases h3 : v.ExitEpoch = cfg.FarFutureEpoch <;>
    by_cases h4 : v.WithdrawableEpoch = cfg.FarFutureEpoch <;>
    simp [h1, h2, h3, h4] <;>
    omega

/-- What `validatorsAreActive` checks: it returns nil exactly when the client answered with a
list of `MinGenesisActiveValidatorCount` validators, each with an effective balance of at least
`MaxEffectiveBalance`, activation epoch 0 and exit epoch `FarFutureEpoch`. The withdrawable
epoch takes no part. -/
theorem validatorsAreActive_nil_iff (cfg : BeaconChainConfig)
    (answer : Except Error (List Validator)) :
    validatorsAreActive cfg answer = none ↔
      ∃ validatorList : List Validator, answer = Except.ok validatorList ∧
        validatorList.length = cfg.MinGenesisActiveValidatorCount ∧
        ∀ v : Validator, v ∈ validatorList →
          cfg.MaxEffectiveBalance ≤ v.EffectiveBalance ∧ v.ActivationEpoch = 0 ∧
            v.ExitEpoch = cfg.FarFutureEpoch := by
  cases answer with
  | error err => simp [validatorsAreActive, errorsWrap]
  | ok validatorList =>
    unfold validatorsAreActive
    simp only [foldl_countWrong, Nat.zero_add, Except.ok.injEq, exists_eq_left']
    by_cases hlen : cfg.MinGenesisActiveValidatorCount ≠ validatorList.length
    · rw [if_pos hlen]
      constructor
      · intro h
        cases h
      · intro h
        exact absurd h.1.symm hlen
    · rw [if_neg hlen]
      have hlen1 : validatorList.length = cfg.MinGenesisActiveValidatorCount :=
        (not_not.mp hlen).symm
      by_cases h1 : List.countP
          (fun v => decide (v.EffectiveBalance < cfg.MaxEffectiveBalance)) validatorList > 0
      · rw [if_pos h1]
        obtain ⟨v, hv, hp⟩ := List.countP_pos_iff.mp h1
        simp only [decide_eq_true_eq] at hp
        constructor
        · intro h
          cases h
        · intro h
          have := (h.2 v hv).1
          omega
      · rw [if_neg h1]
        by_cases h2 : List.countP (fun v => decide (v.ActivationEpoch ≠ 0)) validatorList > 0
        · rw [if_pos h2]
          obtain ⟨v, hv, hp⟩ := List.countP_pos_iff.mp h2
          simp only [decide_eq_true_eq] at hp
          constructor
          · intro h
            cases h
          · intro h
            exact absurd (h.2 v hv).2.1 hp
        · rw [if_neg h2]
          by_cases h3 : List.countP
              (fun v => decide (v.ExitEpoch ≠ cfg.FarFutureEpoch)) validatorList > 0
          · rw [if_pos h3]
            obtain ⟨v, hv, hp⟩ := List.countP_pos_iff.mp h3
            simp only [decide_eq_true_eq] at hp
            constructor
            · intro h
              cases h
            · intro h
              exact absurd (h.2 v hv).2.2 hp
          · rw [if_neg h3, if_neg h2]
            constructor
            · intro _
              refine ⟨hlen1, fun v hv => ⟨?_, ?_, ?_⟩⟩
              · by_contra hc
                exact h1 (List.countP_pos_iff.mpr ⟨v, hv, by simpa using hc⟩)
              · by_contra hc
                exact h2 (List.countP_pos_iff.mpr ⟨v, hv, by simpa using hc⟩)
              · by_contra hc
                exact h3 (List.countP_pos_iff.mpr ⟨v, hv, by simpa using hc⟩)
            · intro _
              rfl

/-! ## Descent from the finalized block -/

/-- C1, at the failing input: the finalized checkpoint names a root under which the store holds
no block, the store answers the read with no block and no error, and `getBlockPreState` returns
the pre-state of the block at slot 48 with no error. -/
theorem getBlockPreState_accepts_without_finalized_block :
    blockAt unanchoredService unanchoredService.finalizedCheckpt.Root = none ∧
    unanchoredService.beaconDB.Block (ToBytes32 unanchoredService.finalizedCheckpt.Root)
      = Except.ok none ∧
    verifyBlkDescendant unanchoredService background 2 (ToBytes32 (sampleRoot 3)) 48
      = some none ∧
    getBlockPreState (sampleEnv 4332 false) unanchoredService background 2
        { Slot := 48, ParentRoot := sampleRoot 3 }
      = some (Except.ok sampleState) := by
  refine ⟨by decide, by decide, by decide, by decide⟩

/-! ## Pruning keeps the finalized and head states -/

/-- C2: when `rmStatesOlderThanLastFinalized` returns without error, the roots whose states it
deletes contain neither the store's finalized checkpoint root nor the signing root of the
store's head block, and the state stored under either root is the same after the call as
before. -/
theorem rmStates_keeps_finalized_and_head (env : Env) (s : Service) (startSlot endSlot : Nat)
    (s2 : Service) (h : rmStatesOlderThanLastFinalized env s startSlot endSlot = (s2, none)) :
    ∃ (deleted : List Bytes32) (hRoot : Bytes32),
      env.SigningRoot s.beaconDB.headBlock = Except.ok hRoot ∧
      s2.beaconDB.states = s.beaconDB.states.filter (fun p => decide (p.1 ∉ deleted)) ∧
      (∀ r : Bytes32, r ∈ deleted → r.val ≠ s.beaconDB.finalizedCheckpoint.Root) ∧
      hRoot ∉ deleted ∧
      (∀ k : Bytes32, k.val = s.beaconDB.finalizedCheckpoint.Root ∨ k = hRoot →
        lookup k s2.beaconDB.states = lookup k s.beaconDB.states) := by
  obtain ⟨_, _, roots, filtered, _, _, _, h4, hs2⟩ := rmStates_ok h
  obtain ⟨hRoot, hsr, _, _, hfilt⟩ := filterBlockRoots_ok h4
  have hfin : ∀ r : Bytes32, r ∈ filtered → r.val ≠ s.beaconDB.finalizedCheckpoint.Root := by
    intro r hr
    rw [hfilt] at hr
    have := (List.mem_filter.mp hr).2
    simp only [Bool.not_eq_true', Bool.or_eq_false_iff, decide_eq_false_iff_not] at this
    exact this.1
  have hhead : hRoot ∉ filtered := by
    intro hr
    rw [hfilt] at hr
    have := (List.mem_filter.mp hr).2
    simp at this
  refine ⟨filtered, hRoot, hsr, ?_, hfin, hhead, ?_⟩
  · rw [hs2]
  · intro k hk
    rw [hs2]
    apply lookup_filter_not_mem
    rcases hk with hk | hk
    · exact fun hmem => hfin k hmem hk
    · rw [hk]
      exact hhead

/-- Witness for C2: pruning the slots 1 to 6 of a store whose finalized block sits at slot 3 and
whose head block sits at slot 4 deletes the states of slots 1 and 2 only. -/
theorem rmStates_keeps_finalized_and_head_witness :
    rmStatesOlderThanLastFinalized (sampleEnv 0 false) pruningService 1 6
      = (prunedService, none) ∧
    ∃ (deleted : List Bytes32) (hRoot : Bytes32),
      (sampleEnv 0 false).SigningRoot pruningService.beaconDB.headBlock = Except.ok hRoot ∧
      prunedService.beaconDB.states
        = pruningService.beaconDB.states.filter (fun p => decide (p.1 ∉ deleted)) ∧
      (∀ r : Bytes32, r ∈ deleted → r.val ≠ pruningService.beaconDB.finalizedCheckpoint.Root) ∧
      hRoot ∉ deleted ∧
      (∀ k : Bytes32, k.val = pruningService.beaconDB.finalizedCheckpoint.Root ∨ k = hRoot →
        lookup k prunedService.beaconDB.states = lookup k pruningService.beaconDB.states) :=
  ⟨rfl, rmStates_keeps_finalized_and_head (sampleEnv 0 false) pruningService 1 6
    prunedService rfl⟩

/-! ## A non-empty ancestor lies on the chain at the slot asked for -/

/-- C3: whenever `ancestor(r, s)` returns a non-empty root `x` with no error, `x` is `r` or is
reached from `r` by following parent roots, and the block stored at `x` has slot exactly `s`. -/
theorem ancestor_nonempty_result_on_chain (s : Service) (ctx : Context) (fuel : Nat) (r : Bytes)
    (slot : Nat) (x : Bytes) (h : ancestor s ctx fuel r slot = some (Except.ok x))
    (hx : x ≠ []) :
    Reaches s r x ∧ ∃ b : BeaconBlock, blockAt s x = some b ∧ b.Slot = slot := by
  induction fuel generalizing r with
  | zero => simp [ancestor] at h
  | succ n ih =>
    obtain ⟨hc, signed, b, hs, hb⟩ := ancestor_ok_inv h
    rw [ancestor_succ_of_block hc hs hb] at h
    have hat := blockAt_of_Block hs hb
    by_cases h1 : b.Slot < slot
    · rw [if_pos h1] at h
      injection h with h
      injection h with h
      exact absurd h.symm hx
    · rw [if_neg h1] at h
      by_cases h2 : b.Slot = slot
      · rw [if_pos h2] at h
        injection h with h
        injection h with h
        subst h
        exact ⟨Reaches.refl r, b, hat, h2⟩
      · rw [if_neg h2] at h
        obtain ⟨hr, hres⟩ := ih b.ParentRoot h
        exact ⟨Reaches.step b hat hr, hres⟩

/-- Witness for C3 (scenario S6): block A at slot 10 under root 1, its child B at slot 12 under
root 2; the ancestor of B at slot 10 is A. -/
theorem ancestor_nonempty_result_on_chain_witness :
    Reaches skippedSlotService (sampleRoot 2) (sampleRoot 1) ∧
      ∃ b : BeaconBlock, blockAt skippedSlotService (sampleRoot 1) = some b ∧ b.Slot = 10 :=
  ancestor_nonempty_result_on_chain skippedSlotService background 2 (sampleRoot 2) 10
    (sampleRoot 1) (by decide) (by decide)

/-! ## An empty ancestor -/

/-- C4, as stated, fails twice. In a store where a block at slot 5 names a parent at slot 10, the
walk from the child to slot 10 returns the empty result although the parent sits at slot 10. And
the walk from the empty slice, which is read as the all-zero root, returns that empty slice
although the block under the all-zero root sits at the slot asked for. -/
theorem ancestor_empty_result_counterexample :
    (ancestor decreasingService background 1 (sampleRoot 1) 10 = some (Except.ok []) ∧
      Reaches decreasingService (sampleRoot 1) (sampleRoot 2) ∧
      blockAt decreasingService (sampleRoot 2)
        = some { Slot := 10, ParentRoot := sampleRoot 0 }) ∧
    (ancestor zeroRootService background 1 [] 7 = some (Except.ok []) ∧
      Reaches zeroRootService [] [] ∧
      blockAt zeroRootService [] = some { Slot := 7, ParentRoot := sampleRoot 0 }) := by
  refine ⟨⟨by decide, ?_, by decide⟩, ⟨by decide, Reaches.refl _, by decide⟩⟩
  exact Reaches.step { Slot := 5, ParentRoot := sampleRoot 2 } (by decide) (Reaches.refl _)

/-- C4, amended: in a store whose slots increase from parent to child, whenever `ancestor(r, s)`
returns the empty result with no error, no block that is named by a non-empty root and is `r` or
is reached from `r` by following parent roots has slot `s`. -/
theorem ancestor_empty_result_no_block_at_slot (s : Service) (hm : SlotsIncrease s)
    (ctx : Context) (fuel : Nat) (r : Bytes) (slot : Nat)
    (h : ancestor s ctx fuel r slot = some (Except.ok [])) :
    ∀ x : Bytes, Reaches s r x → x ≠ [] →
      ∀ bx : BeaconBlock, blockAt s x = some bx → bx.Slot ≠ slot := by
  induction fuel generalizing r with
  | zero => simp [ancestor] at h
  | succ n ih =>
    obtain ⟨hc, signed, b, hs, hb⟩ := ancestor_ok_inv h
    rw [ancestor_succ_of_block hc hs hb] at h
    have hat := blockAt_of_Block hs hb
    intro x hr hx bx hbx
    have hle : bx.Slot ≤ b.Slot ∧ (x ≠ r → bx.Slot < b.Slot) := by
      cases hr with
      | refl =>
        rw [hat] at hbx
        injection hbx with hbx
        subst hbx
        exact ⟨le_refl _, fun hne => absurd rfl hne⟩
      | step b1 hb1 hr1 =>
        rw [hat] at hb1
        injection hb1 with hb1
        subst hb1
        have := slot_lt_of_reaches_parent hm hr1 r b hat rfl bx hbx
        exact ⟨by omega, fun _ => this⟩
    by_cases h1 : b.Slot < slot
    · omega
    · rw [if_neg h1] at h
      by_cases h2 : b.Slot = slot
      · rw [if_pos h2] at h
        injection h with h
        injection h with h
        have hne : x ≠ r := by
          rw [h]
          exact hx
        have := hle.2 hne
        omega
      · rw [if_neg h2] at h
        cases hr with
        | refl =>
          rw [hat] at hbx
          injection hbx with hbx
          subst hbx
          exact h2
        | step b1 hb1 hr1 =>
          rw [hat] at hb1
          injection hb1 with hb1
          subst hb1
          exact ih b.ParentRoot h x hr1 hx bx hbx

/-- Witness for the amended C4 (scenario S6): the walk from B to the skipped slot 11 is empty,
and neither B (slot 12) nor A (slot 10) sits at slot 11. -/
theorem ancestor_empty_result_no_block_at_slot_witness :
    ancestor skippedSlotService background 2 (sampleRoot 2) 11 = some (Except.ok []) ∧
      ∀ x : Bytes, Reaches skippedSlotService (sampleRoot 2) x → x ≠ [] →
        ∀ bx : BeaconBlock, blockAt skippedSlotService x = some bx → bx.Slot ≠ 11 :=
  ⟨by decide,
    ancestor_empty_result_no_block_at_slot skippedSlotService
      (slotsIncrease_of_check (by decide)) background 2 (sampleRoot 2) 11 (by decide)⟩

/-! ## Adoption of a justified checkpoint outside the window -/

/-- C5: outside the early-slot window, when the candidate root and the current justified root
both resolve to stored blocks and the ancestor walk returns a result, the answer of
`shouldUpdateCurrentJustified` is true exactly when the candidate block's slot is strictly
greater than `start_slot(justifiedCheckpt.Epoch)` and the walk's result equals
`justifiedCheckpt.Root`, and false otherwise. -/
theorem shouldUpdateCurrentJustified_late_slots (env : Env) (s : Service) (ctx : Context)
    (fuel : Nat) (newJustifiedCheckpt : Checkpoint)
    (newSigned justifiedSigned : SignedBeaconBlock) (newBlock justifiedBlock : BeaconBlock)
    (a : Bytes)
    (hlate : ¬ SlotsSinceEpochStarts env.cfg (currentSlot env s) <
      env.cfg.SafeSlotsToUpdateJustified)
    (hnew : s.beaconDB.Block (ToBytes32 newJustifiedCheckpt.Root) = Except.ok (some newSigned))
    (hnewBlock : newSigned.Block = some newBlock)
    (hjust : s.beaconDB.Block (ToBytes32 s.justifiedCheckpt.Root)
      = Except.ok (some justifiedSigned))
    (hjustBlock : justifiedSigned.Block = some justifiedBlock)
    (hwalk : ancestor s ctx fuel newJustifiedCheckpt.Root justifiedBlock.Slot
      = some (Except.ok a)) :
    shouldUpdateCurrentJustified env s ctx fuel newJustifiedCheckpt
      = some (Except.ok (decide (StartSlot env.cfg s.justifiedCheckpt.Epoch < newBlock.Slot ∧
          a = s.justifiedCheckpt.Root))) := by
  unfold shouldUpdateCurrentJustified
  rw [if_neg hlate]
  simp only [hnew, hnewBlock, hjust, hjustBlock, hwalk]
  by_cases h1 : newBlock.Slot ≤ StartSlot env.cfg s.justifiedCheckpt.Epoch
  · have : ¬ StartSlot env.cfg s.justifiedCheckpt.Epoch < newBlock.Slot := by omega
    simp [h1, this]
  · have : StartSlot env.cfg s.justifiedCheckpt.Epoch < newBlock.Slot := by omega
    by_cases h2 : a = s.justifiedCheckpt.Root
    · simp [h1, this, h2]
    · simp [h1, this, h2]

/-- Witness for C5 (scenario S3): at slot `start_slot(11) + 8 + 1 = 361` the candidate (11, N),
whose ancestor at slot 320 is K and not J, is refused. -/
theorem shouldUpdateCurrentJustified_late_slots_witness :
    currentSlot (sampleEnv 4332 false) bouncingService = 361 ∧
    shouldUpdateCurrentJustified (sampleEnv 4332 false) bouncingService background 2
      { Epoch := 11, Root := sampleRoot 3 }
      = some (Except.ok (decide (StartSlot sampleConfig 10 < 352 ∧
          sampleRoot 2 = sampleRoot 1))) :=
  ⟨by decide,
   shouldUpdateCurrentJustified_late_slots (sampleEnv 4332 false) bouncingService background 2
      { Epoch := 11, Root := sampleRoot 3 }
      { Block := some { Slot := 352, ParentRoot := sampleRoot 2 } }
      { Block := some { Slot := 320, ParentRoot := sampleRoot 0 } }
      { Slot := 352, ParentRoot := sampleRoot 2 } { Slot := 320, ParentRoot := sampleRoot 0 }
      (sampleRoot 2) (by decide) (by decide) rfl (by decide) rfl (by decide)⟩

/-! ## Adoption of a justified checkpoint inside the window -/

/-- C6: while the current slot lies within the first `SAFE_SLOTS_TO_UPDATE_JUSTIFIED` slots of
its epoch, `shouldUpdateCurrentJustified` returns true with no error, whatever the store, the
candidate checkpoint and the recursion budget. -/
theorem shouldUpdateCurrentJustified_early_slots (env : Env) (s : Service) (ctx : Context)
    (fuel : Nat) (newJustifiedCheckpt : Checkpoint)
    (h : SlotsSinceEpochStarts env.cfg (currentSlot env s) <
      env.cfg.SafeSlotsToUpdateJustified) :
    shouldUpdateCurrentJustified env s ctx fuel newJustifiedCheckpt = some (Except.ok true) := by
  unfold shouldUpdateCurrentJustified
  rw [if_pos h]

/-- Witness for C6 (scenario S4): at slot `start_slot(11) + 1 = 353` the conflicting candidate
(11, N) is adopted. -/
theorem shouldUpdateCurrentJustified_early_slots_witness :
    currentSlot (sampleEnv 4236 false) bouncingService = 353 ∧
    shouldUpdateCurrentJustified (sampleEnv 4236 false) bouncingService background 2
      { Epoch := 11, Root := sampleRoot 3 } = some (Except.ok true) :=
  ⟨by decide,
   shouldUpdateCurrentJustified_early_slots (sampleEnv 4236 false) bouncingService background 2
      { Epoch := 11, Root := sampleRoot 3 } (by decide)⟩

/-! ## Checkpoints after a successful update -/

/-- C7: when `updateJustified` succeeds, `bestJustifiedCheckpt` is the post-state's current
justified checkpoint if its epoch is strictly greater than the previous best epoch and is
unchanged otherwise; `justifiedCheckpt` is the post-state's current justified checkpoint if
`shouldUpdateCurrentJustified` returned true for it and is unchanged otherwise; and
`finalizedCheckpt` is unchanged. -/
theorem updateJustified_success (env : Env) (s : Service) (ctx : Context) (fuel : Nat)
    (state : BeaconState) (s2 : Service)
    (h : updateJustified env s ctx fuel state = some (s2, none)) :
    s2.bestJustifiedCheckpt
        = (if state.CurrentJustifiedCheckpoint.Epoch > s.bestJustifiedCheckpt.Epoch then
            state.CurrentJustifiedCheckpoint else s.bestJustifiedCheckpt) ∧
      (∃ canUpdate : Bool,
          shouldUpdateCurrentJustified env s ctx fuel state.CurrentJustifiedCheckpoint
            = some (Except.ok canUpdate) ∧
          s2.justifiedCheckpt
            = (if canUpdate then state.CurrentJustifiedCheckpoint
                else s.justifiedCheckpt)) ∧
      s2.finalizedCheckpt = s.finalizedCheckpt := by
  obtain ⟨hbest, hfin, _, _, hor⟩ := updateJustified_outcome env s ctx fuel state s2 none h
  refine ⟨hbest, ?_, hfin⟩
  rcases hor with ⟨e, _, he, _⟩ | hok
  · cases he
  · exact hok

/-- Witness for C7 (scenario S3): justified (10, J), candidate (11, N) conflicting, current slot
361 outside the window; the call succeeds, the justified checkpoint stays (10, J) and the best
justified checkpoint becomes (11, N). -/
theorem updateJustified_success_witness :
    updateJustified (sampleEnv 4332 false) bouncingService background 2
        (postStateWith { Epoch := 11, Root := sampleRoot 3 }) = some (bouncedService, none) ∧
    bouncedService.bestJustifiedCheckpt = { Epoch := 11, Root := sampleRoot 3 } ∧
    (∃ canUpdate : Bool,
      shouldUpdateCurrentJustified (sampleEnv 4332 false) bouncingService background 2
        { Epoch := 11, Root := sampleRoot 3 } = some (Except.ok canUpdate) ∧
      bouncedService.justifiedCheckpt
        = (if canUpdate then { Epoch := 11, Root := sampleRoot 3 }
            else { Epoch := 10, Root := sampleRoot 1 })) ∧
    bouncedService.justifiedCheckpt = { Epoch := 10, Root := sampleRoot 1 } ∧
    bouncedService.finalizedCheckpt = { Epoch := 9, Root := sampleRoot 0 } :=
  have h := updateJustified_success (sampleEnv 4332 false) bouncingService background 2
    (postStateWith { Epoch := 11, Root := sampleRoot 3 }) bouncedService rfl
  ⟨rfl, h.1, h.2.1, rfl, h.2.2⟩

/-! ## The finality floor -/

/-- C8: `verifyBlkFinalizedSlot(b)` returns an error exactly when
`b.Slot <= start_slot(finalizedCheckpt.Epoch)`, the `uint64` product
`finalizedCheckpt.Epoch * SLOTS_PER_EPOCH`; a block at the start slot is rejected, a block one
slot later passes, and every block that `getBlockPreState` accepts lies strictly after the
start slot. -/
theorem verifyBlkFinalizedSlot_error_iff (env : Env) (s : Service) :
    (∀ b : BeaconBlock, (verifyBlkFinalizedSlot env s b).isSome = true ↔
        b.Slot ≤ StartSlot env.cfg s.finalizedCheckpt.Epoch) ∧
    StartSlot env.cfg s.finalizedCheckpt.Epoch
        = (s.finalizedCheckpt.Epoch * env.cfg.SlotsPerEpoch) % 2 ^ 64 ∧
    (s.finalizedCheckpt.Epoch * env.cfg.SlotsPerEpoch < 2 ^ 64 →
      StartSlot env.cfg s.finalizedCheckpt.Epoch
        = s.finalizedCheckpt.Epoch * env.cfg.SlotsPerEpoch) ∧
    (∀ b : BeaconBlock, b.Slot = StartSlot env.cfg s.finalizedCheckpt.Epoch →
        verifyBlkFinalizedSlot env s b
          = some (Error.beforeFinalizedSlot b.Slot
              (StartSlot env.cfg s.finalizedCheckpt.Epoch))) ∧
    (∀ b : BeaconBlock, b.Slot = StartSlot env.cfg s.finalizedCheckpt.Epoch + 1 →
        verifyBlkFinalizedSlot env s b = none) ∧
    (∀ (ctx : Context) (fuel : Nat) (b : BeaconBlock) (preState : BeaconState),
        getBlockPreState env s ctx fuel b = some (Except.ok preState) →
        StartSlot env.cfg s.finalizedCheckpt.Epoch < b.Slot) := by
  refine ⟨?_, rfl, fun hlt => Nat.mod_eq_of_lt hlt, ?_, ?_, ?_⟩
  · intro b
    unfold verifyBlkFinalizedSlot
    by_cases h : StartSlot env.cfg s.finalizedCheckpt.Epoch ≥ b.Slot
    · simp [h]
    · simp [h]
  · intro b hb
    unfold verifyBlkFinalizedSlot
    simp [hb]
  · intro b hb
    unfold verifyBlkFinalizedSlot
    simp [hb]
  · intro ctx fuel b preState h
    unfold getBlockPreState at h
    split at h
    · cases h
    · split at h
      · cases h
      · split at h
        · cases h
        · cases h
        · split at h
          · cases h
          · rename_i hv
            unfold verifyBlkFinalizedSlot at hv
            by_cases hle : StartSlot env.cfg s.finalizedCheckpt.Epoch ≥ b.Slot
            · simp [hle] at hv
            · omega

/-- Witness for C8: with the finalized epoch 9 and 32 slots per epoch the start slot is 288; a
block at slot 288 is rejected and a block at slot 289 passes. -/
theorem verifyBlkFinalizedSlot_error_iff_witness :
    StartSlot sampleConfig 9 = 288 ∧
    verifyBlkFinalizedSlot (sampleEnv 4332 false) bouncingService
        { Slot := 288, ParentRoot := sampleRoot 1 }
      = some (Error.beforeFinalizedSlot 288 288) ∧
    verifyBlkFinalizedSlot (sampleEnv 4332 false) bouncingService
        { Slot := 289, ParentRoot := sampleRoot 1 } = none :=
  ⟨by decide,
   (verifyBlkFinalizedSlot_error_iff (sampleEnv 4332 false) bouncingService).2.2.2.1
      { Slot := 288, ParentRoot := sampleRoot 1 } (by decide),
   (verifyBlkFinalizedSlot_error_iff (sampleEnv 4332 false) bouncingService).2.2.2.2.1
      { Slot := 289, ParentRoot := sampleRoot 1 } (by decide)⟩

/-! ## Rejection of blocks off the finalized chain -/

/-- C9: when the finalized root resolves to a stored block at slot `f` and the walk
`ancestor(root, f)` returns a result (a root or the empty result) that differs from
`finalizedCheckpt.Root`, `verifyBlkDescendant` returns the not-a-descendant error, and
`getBlockPreState` returns an error for every block whose parent root is `root`. -/
theorem verifyBlkDescendant_rejects_other_ancestor (s : Service) (ctx : Context) (fuel : Nat)
    (root : Bytes32) (slot : Nat) (finalizedSigned : SignedBeaconBlock)
    (finalizedBlk : BeaconBlock) (a : Bytes)
    (hfin : s.beaconDB.Block (ToBytes32 s.finalizedCheckpt.Root)
      = Except.ok (some finalizedSigned))
    (hfinBlock : finalizedSigned.Block = some finalizedBlk)
    (hwalk : ancestor s ctx fuel root.val finalizedBlk.Slot = some (Except.ok a))
    (hne : a ≠ s.finalizedCheckpt.Root) :
    verifyBlkDescendant s ctx fuel root slot
        = some (some (Error.notDescendant slot finalizedBlk.Slot a s.finalizedCheckpt.Root)) ∧
      ∀ (env : Env) (b : BeaconBlock), ToBytes32 b.ParentRoot = root →
        ∃ e : Error, getBlockPreState env s ctx fuel b = some (Except.error e) := by
  have hv : ∀ slot1 : Nat, verifyBlkDescendant s ctx fuel root slot1
      = some (some (Error.notDescendant slot1 finalizedBlk.Slot a s.finalizedCheckpt.Root)) := by
    intro slot1
    unfold verifyBlkDescendant
    simp only [hfin, hfinBlock, hwalk]
    rw [if_pos hne]
  refine ⟨hv slot, ?_⟩
  intro env b hb
  unfold getBlockPreState
  split
  · exact ⟨_, rfl⟩
  · split
    · exact ⟨_, rfl⟩
    · simp only [hb, hv b.Slot]
      exact ⟨_, rfl⟩

/-- Witness for C9 (scenario S2): the block at slot 48 whose parent Q has the ancestor F2, not F,
at the finalized slot 32 is rejected as not a descendant. -/
theorem verifyBlkDescendant_rejects_other_ancestor_witness :
    verifyBlkDescendant forkedService background 2 (ToBytes32 (sampleRoot 3)) 48
        = some (some (Error.notDescendant 48 32 (sampleRoot 2) (sampleRoot 1))) ∧
      ∃ e : Error, getBlockPreState (sampleEnv 4332 false) forkedService background 2
        { Slot := 48, ParentRoot := sampleRoot 3 } = some (Except.error e) :=
  have h := verifyBlkDescendant_rejects_other_ancestor forkedService background 2
    (ToBytes32 (sampleRoot 3)) 48 { Block := some { Slot := 32, ParentRoot := sampleRoot 0 } }
    { Slot := 32, ParentRoot := sampleRoot 0 } (sampleRoot 2) (by decide) rfl (by decide)
    (by decide)
  ⟨h.1, h.2 (sampleEnv 4332 false) { Slot := 48, ParentRoot := sampleRoot 3 } (by decide)⟩

/-! ## Checkpoints after a failed update -/

/-- C10, as stated, fails twice. With the candidate root naming no stored block, outside the
window, `updateJustified` returns the missing-block error after it has replaced
`bestJustifiedCheckpt`. With the store refusing to save the justified checkpoint, inside the
window, it returns the store's error after it has replaced `justifiedCheckpt` too. -/
theorem updateJustified_error_counterexample :
    (updateJustified (sampleEnv 4332 false) bouncingService background 2
        (postStateWith { Epoch := 11, Root := sampleRoot 7 })
      = some (bestReplacedService { Epoch := 11, Root := sampleRoot 7 },
          some Error.nilNewJustifiedBlock) ∧
      (bestReplacedService { Epoch := 11, Root := sampleRoot 7 }).bestJustifiedCheckpt
        ≠ bouncingService.bestJustifiedCheckpt) ∧
    (updateJustified (sampleEnv 4236 false) readOnlyService background 2
        (postStateWith { Epoch := 11, Root := sampleRoot 3 })
      = some ({ readOnlyService with
          bestJustifiedCheckpt := { Epoch := 11, Root := sampleRoot 3 },
          justifiedCheckpt := { Epoch := 11, Root := sampleRoot 3 } },
          some (Error.store 1)) ∧
      ({ Epoch := 11, Root := sampleRoot 3 } : Checkpoint)
        ≠ readOnlyService.justifiedCheckpt) :=
  ⟨⟨rfl, by decide⟩, ⟨rfl, by decide⟩⟩

/-- C10, amended: when `updateJustified` returns an error, `finalizedCheckpt` and the init-sync
cache are as before the call; `bestJustifiedCheckpt` is the post-state's current justified
checkpoint if its epoch is strictly greater than the previous best epoch and is unchanged
otherwise; and `justifiedCheckpt` is unchanged when the error is the one returned by
`shouldUpdateCurrentJustified`, while after a failed store write it is the post-state's
checkpoint if `shouldUpdateCurrentJustified` returned true and is unchanged otherwise. -/
theorem updateJustified_error_frame (env : Env) (s : Service) (ctx : Context) (fuel : Nat)
    (state : BeaconState) (s2 : Service) (e : Error)
    (h : updateJustified env s ctx fuel state = some (s2, some e)) :
    s2.finalizedCheckpt = s.finalizedCheckpt ∧
      s2.initSyncState = s.initSyncState ∧
      s2.bestJustifiedCheckpt
        = (if state.CurrentJustifiedCheckpoint.Epoch > s.bestJustifiedCheckpt.Epoch then
            state.CurrentJustifiedCheckpoint else s.bestJustifiedCheckpt) ∧
      ((shouldUpdateCurrentJustified env s ctx fuel state.CurrentJustifiedCheckpoint
            = some (Except.error e) ∧
          s2.justifiedCheckpt = s.justifiedCheckpt) ∨
       (∃ canUpdate : Bool,
          shouldUpdateCurrentJustified env s ctx fuel state.CurrentJustifiedCheckpoint
            = some (Except.ok canUpdate) ∧
          s2.justifiedCheckpt
            = (if canUpdate then state.CurrentJustifiedCheckpoint
                else s.justifiedCheckpt))) := by
  obtain ⟨hbest, hfin, hcache, _, hor⟩ :=
    updateJustified_outcome env s ctx fuel state s2 (some e) h
  refine ⟨hfin, hcache, hbest, ?_⟩
  rcases hor with ⟨e1, hsu, he, hj, _⟩ | hok
  · injection he with he
    subst he
    exact Or.inl ⟨hsu, hj⟩
  · exact Or.inr hok

/-- Witness for the amended C10: the candidate root names no stored block, outside the window;
the call returns the missing-block error, the finalized checkpoint, the cache and the justified
checkpoint are as before, and the best justified checkpoint is the candidate. -/
theorem updateJustified_error_frame_witness :
    updateJustified (sampleEnv 4332 false) bouncingService background 2
        (postStateWith { Epoch := 11, Root := sampleRoot 7 })
      = some (bestReplacedService { Epoch := 11, Root := sampleRoot 7 },
          some Error.nilNewJustifiedBlock) ∧
    (bestReplacedService { Epoch := 11, Root := sampleRoot 7 }).finalizedCheckpt
      = { Epoch := 9, Root := sampleRoot 0 } ∧
    (bestReplacedService { Epoch := 11, Root := sampleRoot 7 }).initSyncState = [] ∧
    (bestReplacedService { Epoch := 11, Root := sampleRoot 7 }).bestJustifiedCheckpt
      = { Epoch := 11, Root := sampleRoot 7 } ∧
    (bestReplacedService { Epoch := 11, Root := sampleRoot 7 }).justifiedCheckpt
      = { Epoch := 10, Root := sampleRoot 1 } :=
  have h := updateJustified_error_frame (sampleEnv 4332 false) bouncingService background 2
    (postStateWith { Epoch := 11, Root := sampleRoot 7 })
    (bestReplacedService { Epoch := 11, Root := sampleRoot 7 })
    Error.nilNewJustifiedBlock rfl
  ⟨rfl, h.1, h.2.1, h.2.2.1, rfl⟩

/-! ## The justified epoch against the finalized epoch -/

/-- C11, as stated, fails: inside the early-slot window `updateJustified` adopts the post-state's
justified checkpoint whatever its epoch. From justified epoch 10 and finalized epoch 9, a
post-state whose justified checkpoint has epoch 5 leaves the justified epoch at 5. -/
theorem updateJustified_justified_epoch_counterexample :
    updateJustified (sampleEnv 4236 false) bouncingService background 2
        (postStateWith { Epoch := 5, Root := sampleRoot 3 })
      = some ({ bouncingService with
          justifiedCheckpt := { Epoch := 5, Root := sampleRoot 3 },
          beaconDB := { bouncingService.beaconDB with
            justifiedCheckpoint := { Epoch := 5, Root := sampleRoot 3 } } }, none) ∧
    bouncingService.justifiedCheckpt.Epoch ≥ bouncingService.finalizedCheckpt.Epoch ∧
    ¬ ((5 : Nat) ≥ bouncingService.finalizedCheckpt.Epoch) :=
  ⟨rfl, by decide, by decide⟩

/-- C11, amended: for every service state in which
`justifiedCheckpt.Epoch >= finalizedCheckpt.Epoch` holds and every post-state whose current
justified checkpoint has an epoch of at least `finalizedCheckpt.Epoch`, the predicate holds
after `updateJustified` returns, with or without an error. -/
theorem updateJustified_keeps_justified_above_finalized (env : Env) (s : Service)
    (ctx : Context) (fuel : Nat) (state : BeaconState) (s2 : Service) (err : Option Error)
    (hinv : s.justifiedCheckpt.Epoch ≥ s.finalizedCheckpt.Epoch)
    (hpost : state.CurrentJustifiedCheckpoint.Epoch ≥ s.finalizedCheckpt.Epoch)
    (h : updateJustified env s ctx fuel state = some (s2, err)) :
    s2.justifiedCheckpt.Epoch ≥ s2.finalizedCheckpt.Epoch := by
  obtain ⟨_, hfin, _, _, hor⟩ := updateJustified_outcome env s ctx fuel state s2 err h
  rw [hfin]
  rcases hor with ⟨e, _, _, hj, _⟩ | ⟨canUpdate, _, hj⟩
  · rw [hj]
    exact hinv
  · rw [hj]
    cases canUpdate
    · exact hinv
    · exact hpost

/-- Witness for the amended C11 (scenario S3): from justified epoch 10 and finalized epoch 9, the
candidate of epoch 11 leaves the justified epoch at 10, above the finalized epoch. -/
theorem updateJustified_keeps_justified_above_finalized_witness :
    bouncedService.justifiedCheckpt.Epoch ≥ bouncedService.finalizedCheckpt.Epoch :=
  updateJustified_keeps_justified_above_finalized (sampleEnv 4332 false) bouncingService
    background 2 (postStateWith { Epoch := 11, Root := sampleRoot 3 }) bouncedService none
    (by decide) (by decide) rfl

/-! ## The slot range that pruning deletes -/

/-- C12, as stated, fails when the store refuses a request: over a store that answers the
request for block roots with an error, with blocks at slots 1 to 5, start slot 1 and end slot 6,
the greatest occupied slots are 1 and 5 and the block roots of the range `[1, 4]` other than the
finalized and head roots are those of slots 1 and 2, yet the call returns the store's error and
deletes no state. -/
theorem rmStates_range_counterexample :
    holdsBlockAt unreadablePruningService.beaconDB 1 = true ∧
    holdsBlockAt unreadablePruningService.beaconDB 5 = true ∧
    holdsBlockAt unreadablePruningService.beaconDB 6 = false ∧
    withoutFinalizedAndHead unreadablePruningService.beaconDB.finalizedCheckpoint.Root
        (ToBytes32 (sampleRoot 4)) (rootsInSlotRange unreadablePruningService.beaconDB 1 4)
      = [ToBytes32 (sampleRoot 1), ToBytes32 (sampleRoot 2)] ∧
    rmStatesOlderThanLastFinalized (sampleEnv 0 false) unreadablePruningService 1 6
      = (unreadablePruningService, some (Error.store 2)) ∧
    lookup (ToBytes32 (sampleRoot 1)) unreadablePruningService.beaconDB.states
      = some (stateAt 1) := by
  refine ⟨by decide, by decide, by decide, by decide, rfl, by decide⟩

/-- C12, amended: let `g1` be the greatest slot in `[1, startSlot]` holding a stored block and
`g2` the greatest slot in `[1, endSlot]` holding one, with `g1 <= g2 - 1`. When
`rmStatesOlderThanLastFinalized` returns without error, the range it queried is `[g1, g2 - 1]`
and the states it deleted are exactly those keyed by the block roots of that range other than
the finalized root and the head root. -/
theorem rmStates_deletes_normalized_range (env : Env) (s : Service)
    (startSlot endSlot g1 g2 : Nat) (s2 : Service)
    (hs1 : 1 ≤ g1) (hs2 : g1 ≤ startSlot) (hs3 : holdsBlockAt s.beaconDB g1 = true)
    (hs4 : ∀ t : Nat, g1 < t → t ≤ startSlot → holdsBlockAt s.beaconDB t = false)
    (he1 : 1 ≤ g2) (he2 : g2 ≤ endSlot) (he3 : holdsBlockAt s.beaconDB g2 = true)
    (he4 : ∀ t : Nat, g2 < t → t ≤ endSlot → holdsBlockAt s.beaconDB t = false)
    (hle : g1 ≤ g2 - 1)
    (h : rmStatesOlderThanLastFinalized env s startSlot endSlot = (s2, none)) :
    ∃ hRoot : Bytes32,
      env.SigningRoot s.beaconDB.headBlock = Except.ok hRoot ∧
      prunedRange s.beaconDB startSlot endSlot = Except.ok (g1, g2 - 1) ∧
      s2.beaconDB.states = s.beaconDB.states.filter (fun p => decide (p.1 ∉
        withoutFinalizedAndHead s.beaconDB.finalizedCheckpoint.Root hRoot
          (rootsInSlotRange s.beaconDB g1 (g2 - 1)))) := by
  obtain ⟨s1, e1, _, _, h1, h2, _, _, _⟩ := rmStates_ok h
  have hs := skipStartSlot_greatest h1 hs1 hs2 hs3 hs4
  have he := skipEndSlot_greatest h2 he1 he2 he3 he4
  subst hs he
  have hrange : prunedRange s.beaconDB startSlot endSlot = Except.ok (s1, g2 - 1) := by
    unfold prunedRange
    simp only [h1, h2]
    have hne : ¬ s1 = 0 := by omega
    have hnlt : ¬ g2 - 1 < s1 := by omega
    simp only [hne, hnlt, if_false]
  obtain ⟨lo, hi, hRoot, hr, hsr, hs2⟩ := rmStates_ok_range h
  rw [hrange] at hr
  simp only [Except.ok.injEq, Prod.mk.injEq] at hr
  obtain ⟨hlo, hhi⟩ := hr
  subst hlo hhi
  exact ⟨hRoot, hsr, hrange, by rw [hs2]⟩

/-- Witness for the amended C12 (scenario S5): start slot 100 with blocks at 97 but not at 98 to
100, end slot 200 with blocks at 198 but not at 199 and 200; the range is `[97, 197]`, and the
states of slots 97 and 120 are deleted while that of the head block at slot 150 is kept. -/
theorem rmStates_deletes_normalized_range_witness :
    rmStatesOlderThanLastFinalized (sampleEnv 0 false) skipSlotPruningService 100 200
      = (skipSlotPrunedService, none) ∧
    ∃ hRoot : Bytes32,
      (sampleEnv 0 false).SigningRoot skipSlotPruningService.beaconDB.headBlock
        = Except.ok hRoot ∧
      prunedRange skipSlotPruningService.beaconDB 100 200 = Except.ok (97, 198 - 1) ∧
      skipSlotPrunedService.beaconDB.states
        = skipSlotPruningService.beaconDB.states.filter (fun p => decide (p.1 ∉
          withoutFinalizedAndHead skipSlotPruningService.beaconDB.finalizedCheckpoint.Root hRoot
            (rootsInSlotRange skipSlotPruningService.beaconDB 97 (198 - 1)))) :=
  ⟨rfl,
   rmStates_deletes_normalized_range (sampleEnv 0 false) skipSlotPruningService 100 200 97 198
    skipSlotPrunedService (by decide) (by decide) (by decide)
    (by intro t h1 h2; interval_cases t <;> decide)
    (by decide) (by decide) (by decide)
    (by intro t h1 h2; interval_cases t <;> decide)
    (by decide) rfl⟩

/-! ## An end slot below the start slot -/

/-- C13, as stated, fails. With blocks at slots 1 to 5, finalized at slot 3 and head at slot 4:
for start and end slot 0 the genesis guard gives the start slot 1, the end slot 0 lies below it,
the range queried is `[1, 1]` and the state of the block at slot 1 is deleted; for start and end
slot 5 the loops give the start slot 5 and the end slot 4, the range queried is `[5, 5]` and the
state of the block at slot 5 is deleted. -/
theorem rmStates_end_below_start_counterexample :
    (skipStartSlot pruningService.beaconDB 0 0 = Except.ok 0 ∧
      skipEndSlot pruningService.beaconDB 0 0 = Except.ok 0 ∧
      prunedRange pruningService.beaconDB 0 0 = Except.ok (1, 1) ∧
      rmStatesOlderThanLastFinalized (sampleEnv 0 false) pruningService 0 0
        = (slotOnePrunedService, none) ∧
      lookup (ToBytes32 (sampleRoot 1)) pruningService.beaconDB.states = some (stateAt 1) ∧
      lookup (ToBytes32 (sampleRoot 1)) slotOnePrunedService.beaconDB.states = none) ∧
    (skipStartSlot pruningService.beaconDB 5 5 = Except.ok 5 ∧
      skipEndSlot pruningService.beaconDB 5 5 = Except.ok 4 ∧
      prunedRange pruningService.beaconDB 5 5 = Except.ok (5, 5) ∧
      rmStatesOlderThanLastFinalized (sampleEnv 0 false) pruningService 5 5
        = (slotFivePrunedService, none) ∧
      lookup (ToBytes32 (sampleRoot 5)) pruningService.beaconDB.states = some (stateAt 5) ∧
      lookup (ToBytes32 (sampleRoot 5)) slotFivePrunedService.beaconDB.states = none) := by
  refine ⟨⟨by decide, by decide, by decide, rfl, by decide, by decide⟩,
    ⟨by decide, by decide, by decide, rfl, by decide, by decide⟩⟩

/-- C13, amended: when, after the two loops and the genesis guard, the end slot lies below the
start slot, `rmStatesOlderThanLastFinalized` queries the one-slot range made of the start slot;
when it returns without error, the states it deleted are exactly those keyed by the block roots
of that slot other than the finalized root and the head root, and it deleted nothing when the
slot holds no block. -/
theorem rmStates_end_below_start (env : Env) (s : Service) (startSlot endSlot : Nat)
    (startSlot1 endSlot1 : Nat) (s2 : Service)
    (hstart : skipStartSlot s.beaconDB startSlot startSlot = Except.ok startSlot1)
    (hend : skipEndSlot s.beaconDB endSlot endSlot = Except.ok endSlot1)
    (hlt : endSlot1 < (if startSlot1 = 0 then startSlot1 + 1 else startSlot1))
    (h : rmStatesOlderThanLastFinalized env s startSlot endSlot = (s2, none)) :
    prunedRange s.beaconDB startSlot endSlot
        = Except.ok (if startSlot1 = 0 then startSlot1 + 1 else startSlot1,
            if startSlot1 = 0 then startSlot1 + 1 else startSlot1) ∧
      (∃ hRoot : Bytes32,
        env.SigningRoot s.beaconDB.headBlock = Except.ok hRoot ∧
        s2.beaconDB.states = s.beaconDB.states.filter (fun p => decide (p.1 ∉
          withoutFinalizedAndHead s.beaconDB.finalizedCheckpoint.Root hRoot
            (rootsInSlotRange s.beaconDB
              (if startSlot1 = 0 then startSlot1 + 1 else startSlot1)
              (if startSlot1 = 0 then startSlot1 + 1 else startSlot1))))) ∧
      (holdsBlockAt s.beaconDB (if startSlot1 = 0 then startSlot1 + 1 else startSlot1) = false →
        s2.beaconDB.states = s.beaconDB.states) := by
  have hrange : prunedRange s.beaconDB startSlot endSlot
      = Except.ok (if startSlot1 = 0 then startSlot1 + 1 else startSlot1,
          if startSlot1 = 0 then startSlot1 + 1 else startSlot1) := by
    unfold prunedRange
    simp only [hstart, hend, hlt, if_true]
  obtain ⟨lo, hi, hRoot, hr, hsr, hs2⟩ := rmStates_ok_range h
  rw [hrange] at hr
  simp only [Except.ok.injEq, Prod.mk.injEq] at hr
  obtain ⟨hlo, hhi⟩ := hr
  subst hlo hhi
  refine ⟨hrange, ⟨hRoot, hsr, by rw [hs2]⟩, ?_⟩
  intro hnone
  rw [hs2]
  simp only [rootsInSlotRange_eq_nil hnone, withoutFinalizedAndHead, List.filter_nil]
  exact filter_not_mem_nil _

/-- Witness for the amended C13: start and end slot 0 over the store with blocks at slots 1 to
5; the range is `[1, 1]` and the state of slot 1 is the one deleted. -/
theorem rmStates_end_below_start_witness :
    prunedRange pruningService.beaconDB 0 0 = Except.ok (1, 1) ∧
    rmStatesOlderThanLastFinalized (sampleEnv 0 false) pruningService 0 0
      = (slotOnePrunedService, none) ∧
    ∃ hRoot : Bytes32,
      (sampleEnv 0 false).SigningRoot pruningService.beaconDB.headBlock = Except.ok hRoot ∧
      slotOnePrunedService.beaconDB.states
        = pruningService.beaconDB.states.filter (fun p => decide (p.1 ∉
          withoutFinalizedAndHead pruningService.beaconDB.finalizedCheckpoint.Root hRoot
            (rootsInSlotRange pruningService.beaconDB 1 1))) :=
  have h := rmStates_end_below_start (sampleEnv 0 false) pruningService 0 0 0 0
    slotOnePrunedService rfl rfl (by decide) rfl
  ⟨h.1, rfl, h.2.1⟩

/-! ## The genesis state survives pruning -/

/-- C14: the slot range that `rmStatesOlderThanLastFinalized` passes to `BlockRoots` starts at
slot 1 or later, whatever the start and end slots given, and after the call, with or without an
error, the state stored under a root that names only a block of slot 0 is as before. -/
theorem rmStates_keeps_genesis_state (env : Env) (s : Service) (startSlot endSlot : Nat) :
    (rmStatesOlderThanLastFinalized env s startSlot endSlot =
      match prunedRange s.beaconDB startSlot endSlot with
      | Except.error e => (s, some e)
      | Except.ok (lo, hi) => deleteStatesInRange env s lo hi) ∧
    (∀ lo hi : Nat, prunedRange s.beaconDB startSlot endSlot = Except.ok (lo, hi) → 1 ≤ lo) ∧
    (∀ (s2 : Service) (err : Option Error) (k : Bytes32),
      rmStatesOlderThanLastFinalized env s startSlot endSlot = (s2, err) →
      (∀ (sb : SignedBeaconBlock) (b : BeaconBlock),
        (k, sb) ∈ s.beaconDB.blocks → sb.Block = some b → b.Slot = 0) →
      lookup k s2.beaconDB.states = lookup k s.beaconDB.states) := by
  refine ⟨rmStates_eq_range_then_delete env s startSlot endSlot,
    fun lo hi h => (prunedRange_bounds h).1, ?_⟩
  intro s2 err k h hk
  cases err with
  | some e => rw [rmStates_error_keeps_states h]
  | none =>
    obtain ⟨lo, hi, hRoot, hr, _, hs2⟩ := rmStates_ok_range h
    rw [hs2]
    apply lookup_filter_not_mem
    intro hmem
    unfold withoutFinalizedAndHead at hmem
    exact not_mem_rootsInSlotRange_of_slot_zero (prunedRange_bounds hr).1 hk
      (List.mem_filter.mp hmem).1

/-- Witness for C14: start slot 0 and end slot 2 over a store with the genesis block and blocks
at slots 1 and 2; the range queried is `[1, 1]` and the genesis state is kept. -/
theorem rmStates_keeps_genesis_state_witness :
    prunedRange genesisPruningService.beaconDB 0 2 = Except.ok (1, 1) ∧
    rmStatesOlderThanLastFinalized (sampleEnv 0 false) genesisPruningService 0 2
      = (genesisPrunedService, none) ∧
    lookup (ToBytes32 (sampleRoot 0)) genesisPrunedService.beaconDB.states
      = lookup (ToBytes32 (sampleRoot 0)) genesisPruningService.beaconDB.states :=
  ⟨by decide, rfl,
   (rmStates_keeps_genesis_state (sampleEnv 0 false) genesisPruningService 0 2).2.2
    genesisPrunedService none (ToBytes32 (sampleRoot 0)) rfl
    (by
      intro sb b hmem hb
      simp only [genesisPruningService, sampleService, sampleDB, List.map_cons, List.map_nil,
        List.mem_cons, List.mem_singleton, Prod.mk.injEq, List.not_mem_nil, or_false] at hmem
      rcases hmem with ⟨_, h1⟩ | ⟨h0, _⟩ | ⟨h0, _⟩
      · subst h1
        injection hb with hb
        subst hb
        rfl
      · exact absurd h0 (by decide)
      · exact absurd h0 (by decide))⟩

/-! ## The init-sync cache after finalization -/

/-- C15: with the init-sync cache enabled and the store write succeeding, the cache after
`saveInitState` is the cache before restricted to the entries whose state slot is at least
`start_slot(FinalizedCheckpoint.Epoch)` of the post-state: an entry is in the new cache exactly
when it was in the old one with such a slot, the order of the entries kept is unchanged, and so
every remaining entry has a slot of at least that start slot. -/
theorem saveInitState_cache (env : Env) (s : Service) (state : BeaconState) (s2 : Service)
    (hflag : env.InitSyncCacheState = true)
    (h : saveInitState env s state = (s2, none)) :
    s2.initSyncState = s.initSyncState.filter (fun entry =>
        decide (StartSlot env.cfg state.FinalizedCheckpoint.Epoch ≤ entry.2.Slot)) ∧
      (∀ entry : Bytes32 × BeaconState, entry ∈ s2.initSyncState ↔
        entry ∈ s.initSyncState ∧
          StartSlot env.cfg state.FinalizedCheckpoint.Epoch ≤ entry.2.Slot) ∧
      (∀ entry : Bytes32 × BeaconState, entry ∈ s2.initSyncState →
        StartSlot env.cfg state.FinalizedCheckpoint.Epoch ≤ entry.2.Slot) := by
  have hcache : s2.initSyncState = s.initSyncState.filter (fun entry =>
      decide (StartSlot env.cfg state.FinalizedCheckpoint.Epoch ≤ entry.2.Slot)) := by
    unfold saveInitState at h
    simp only [hflag, Bool.not_true, Bool.false_eq_true, if_false] at h
    split at h
    · rename_i db e hsave
      simp [errorsWrap] at h
    · rename_i db hsave
      injection h with h _
      rw [← h]
      simp only [StartSlot]
      congr 1
      funext entry
      by_cases hlt : entry.2.Slot <
          state.FinalizedCheckpoint.Epoch * env.cfg.SlotsPerEpoch % 2 ^ 64
      · rw [decide_eq_true hlt, decide_eq_false (Nat.not_le_of_lt hlt)]
        rfl
      · rw [decide_eq_false hlt, decide_eq_true (Nat.le_of_not_lt hlt)]
        rfl
  refine ⟨hcache, ?_, ?_⟩
  · intro entry
    rw [hcache, List.mem_filter, decide_eq_true_eq]
  · intro entry hmem
    rw [hcache, List.mem_filter, decide_eq_true_eq] at hmem
    exact hmem.2

/-- Witness for C15: the finalized checkpoint (1, root 2) has start slot 32; of the cached states
at slots 31, 32 and 40 the first is evicted and the other two are kept. -/
theorem saveInitState_cache_witness :
    saveInitState (sampleEnv 0 true) cachingService
        (postStateFinalizing { Epoch := 1, Root := sampleRoot 2 })
      = (cachePrunedService, none) ∧
    cachePrunedService.initSyncState = cachingService.initSyncState.filter (fun entry =>
        decide (StartSlot sampleConfig 1 ≤ entry.2.Slot)) ∧
    (∀ entry : Bytes32 × BeaconState, entry ∈ cachePrunedService.initSyncState →
        StartSlot sampleConfig 1 ≤ entry.2.Slot) :=
  have h := saveInitState_cache (sampleEnv 0 true) cachingService
    (postStateFinalizing { Epoch := 1, Root := sampleRoot 2 }) cachePrunedService rfl rfl
  ⟨rfl, h.1, h.2.2⟩

/-! ## Saving the new validators -/

/-- C16: when the post-state has as many validators as the count given, `saveNewValidators`
returns the service as it was and no error, whatever the store would answer to a write, so a
second call does the same. Otherwise it sends the store one batch, whose index list is
`n, n + 1, ..., len(v) - 1` and whose public-key list holds the keys of `v[n], ..., v[len(v) - 1]`
in the same order; the outcome of the call is the store's answer to that batch, and a store that
accepts it gains the pairs of each key with its own index. -/
theorem saveNewValidators_batch (s : Service) (n : Nat) (postState : BeaconState) :
    (postState.Validators.length = n →
      saveNewValidators s n postState = (s, none) ∧
      saveNewValidators (saveNewValidators s n postState).1 n postState = (s, none)) ∧
    (postState.Validators.length ≠ n →
      saveNewValidators s n postState
        = (({ s with beaconDB := (s.beaconDB.SaveValidatorIndices
              ((postState.Validators.drop n).map (fun v => v.PublicKey))
              (List.range' n (postState.Validators.length - n))).1 } : Service),
            errorsWrap (s.beaconDB.SaveValidatorIndices
              ((postState.Validators.drop n).map (fun v => v.PublicKey))
              (List.range' n (postState.Validators.length - n))).2
              (WrapMsg.couldNotSaveActivatedValidators
                (List.range' n (postState.Validators.length - n)))) ∧
      (List.range' n (postState.Validators.length - n)).length
        = postState.Validators.length - n ∧
      ((postState.Validators.drop n).map (fun v => v.PublicKey)).length
        = postState.Validators.length - n ∧
      (∀ i : Nat, i < postState.Validators.length - n →
        (List.range' n (postState.Validators.length - n))[i]? = some (n + i) ∧
        ((postState.Validators.drop n).map (fun v => v.PublicKey))[i]?
          = (postState.Validators[n + i]?).map (fun v => v.PublicKey)) ∧
      (s.beaconDB.fault (DBCall.SaveValidatorIndices
          ((postState.Validators.drop n).map (fun v => v.PublicKey))
          (List.range' n (postState.Validators.length - n))) = none →
        (saveNewValidators s n postState).2 = none ∧
        (saveNewValidators s n postState).1.beaconDB.validatorIndices
          = ((postState.Validators.drop n).map (fun v => v.PublicKey)).zip
              (List.range' n (postState.Validators.length - n))
            ++ s.beaconDB.validatorIndices)) := by
  have hnoop : postState.Validators.length = n → saveNewValidators s n postState = (s, none) := by
    intro hlen
    unfold saveNewValidators
    simp [hlen]
  have hcollect : collectNewValidators postState.Validators
      (postState.Validators.length - n) n [] []
      = (List.range' n (postState.Validators.length - n),
          (postState.Validators.drop n).map (fun v => v.PublicKey)) := by
    by_cases hle : n ≤ postState.Validators.length
    · rw [collectNewValidators_eq _ _ _ _ _ (by omega), List.nil_append, List.nil_append,
        List.take_of_length_le (by simp)]
    · have h0 : postState.Validators.length - n = 0 := by omega
      rw [h0, List.drop_eq_nil_of_le (by omega)]
      rfl
  have hbatch : postState.Validators.length ≠ n →
      saveNewValidators s n postState
        = (({ s with beaconDB := (s.beaconDB.SaveValidatorIndices
              ((postState.Validators.drop n).map (fun v => v.PublicKey))
              (List.range' n (postState.Validators.length - n))).1 } : Service),
            errorsWrap (s.beaconDB.SaveValidatorIndices
              ((postState.Validators.drop n).map (fun v => v.PublicKey))
              (List.range' n (postState.Validators.length - n))).2
              (WrapMsg.couldNotSaveActivatedValidators
                (List.range' n (postState.Validators.length - n)))) := by
    intro hlen
    have hne : n ≠ postState.Validators.length := fun h => hlen h.symm
    unfold saveNewValidators
    simp only [if_pos hne, hcollect]
    generalize s.beaconDB.SaveValidatorIndices
      ((postState.Validators.drop n).map (fun v => v.PublicKey))
      (List.range' n (postState.Validators.length - n)) = answer
    obtain ⟨db, err⟩ := answer
    cases err <;> rfl
  refine ⟨fun hlen => ⟨hnoop hlen, ?_⟩, fun hlen => ⟨hbatch hlen, ?_, ?_, ?_, ?_⟩⟩
  · rw [hnoop hlen]
    exact hnoop hlen
  · simp
  · simp
  · intro i hi
    refine ⟨?_, ?_⟩
    · rw [List.getElem?_range' n 1 hi]
      simp
    · rw [List.getElem?_map, List.getElem?_drop]
  · intro hok
    rw [hbatch hlen]
    unfold BeaconDB.SaveValidatorIndices
    rw [hok]
    exact ⟨rfl, rfl⟩

/-- Witness for C16: with one validator known before and three in the post-state, the batch
pairs the keys of the validators at indices 1 and 2 with 1 and 2; with three known before, the
store is left as it was. -/
theorem saveNewValidators_batch_witness :
    saveNewValidators pruningService 3 threeValidatorState = (pruningService, none) ∧
    (saveNewValidators pruningService 1 threeValidatorState).2 = none ∧
    (saveNewValidators pruningService 1 threeValidatorState).1.beaconDB.validatorIndices
      = ((threeValidatorState.Validators.drop 1).map (fun v => v.PublicKey)).zip
          (List.range' 1 (threeValidatorState.Validators.length - 1))
        ++ pruningService.beaconDB.validatorIndices ∧
    (saveNewValidators pruningService 1 threeValidatorState).1.beaconDB.validatorIndices
      = [([11], 1), ([12], 2)] :=
  have h := saveNewValidators_batch pruningService 1 threeValidatorState
  ⟨((saveNewValidators_batch pruningService 3 threeValidatorState).1 (by decide)).1,
   ((h.2 (by decide)).2.2.2.2 rfl).1, ((h.2 (by decide)).2.2.2.2 rfl).2, by decide⟩

/-! ## The ancestor across a skipped slot -/

/-- C17, as stated, fails three times, each time with A at slot 10 and its child B at slot 12 on
the chain. In a store where a block at slot 11 has B as parent, the walk from that block to slot
11 returns the block's own root, not the empty result. Under a cancelled context the walk from B
to slot 11 returns the context's error. Over a store that refuses to read blocks it returns the
store's error. -/
theorem ancestor_skipped_slot_counterexample :
    (Reaches risingService (sampleRoot 3) (sampleRoot 2) ∧
      blockAt risingService (sampleRoot 2) = some { Slot := 12, ParentRoot := sampleRoot 1 } ∧
      blockAt risingService (sampleRoot 1) = some { Slot := 10, ParentRoot := sampleRoot 0 } ∧
      ancestor risingService background 3 (sampleRoot 3) 11
        = some (Except.ok (sampleRoot 3))) ∧
    (blockAt skippedSlotService (sampleRoot 2)
        = some { Slot := 12, ParentRoot := sampleRoot 1 } ∧
      blockAt skippedSlotService (sampleRoot 1)
        = some { Slot := 10, ParentRoot := sampleRoot 0 } ∧
      ancestor skippedSlotService cancelled 3 (sampleRoot 2) 11
        = some (Except.error (Error.context 0))) ∧
    (blockAt unreadableService (sampleRoot 2)
        = some { Slot := 12, ParentRoot := sampleRoot 1 } ∧
      blockAt unreadableService (sampleRoot 1)
        = some { Slot := 10, ParentRoot := sampleRoot 0 } ∧
      ancestor unreadableService background 3 (sampleRoot 2) 11
        = some (Except.error
            (Error.wrap WrapMsg.couldNotGetAncestorBlock (Error.store 3)))) := by
  refine ⟨⟨?_, by decide, by decide, by decide⟩, ⟨by decide, by decide, by decide⟩,
    ⟨by decide, by decide, by decide⟩⟩
  exact Reaches.step { Slot := 11, ParentRoot := sampleRoot 2 } (by decide) (Reaches.refl _)

/-- C17, amended: in a store whose slots increase from parent to child and that answers block
reads, under a context that is not cancelled, for every root `r` whose chain contains a block B
and its parent A, and every slot strictly between the slot of A and the slot of B,
`ancestor(r, slot)` returns the empty result with no error and `ancestor(r, A.Slot)` returns the
root of A, as B names it. -/
theorem ancestor_across_skipped_slot (s : Service) (hm : SlotsIncrease s) (ctx : Context)
    (hc : ctx.err = none) (hread : ∀ k : Bytes32, s.beaconDB.fault (DBCall.Block k) = none)
    (r rootB : Bytes) (A B : BeaconBlock) (slot : Nat)
    (hchain : Reaches s r rootB) (hB : blockAt s rootB = some B)
    (hA : blockAt s B.ParentRoot = some A) (h1 : A.Slot < slot) (h2 : slot < B.Slot) :
    ∃ fuel : Nat,
      ancestor s ctx fuel r slot = some (Except.ok []) ∧
      ancestor s ctx fuel r A.Slot = some (Except.ok B.ParentRoot) := by
  obtain ⟨signedB, hsB, hsbB⟩ := Block_of_blockAt hB (hread _)
  obtain ⟨signedA, hsA, hsbA⟩ := Block_of_blockAt hA (hread _)
  have e1 : ancestor s ctx 2 rootB slot = some (Except.ok []) := by
    rw [ancestor_succ_of_above hc hsB hsbB h2, ancestor_succ_of_block hc hsA hsbA, if_pos h1]
  have e2 : ancestor s ctx 2 rootB A.Slot = some (Except.ok B.ParentRoot) := by
    rw [ancestor_succ_of_above hc hsB hsbB (by omega), ancestor_succ_of_block hc hsA hsbA,
      if_neg (by omega), if_pos rfl]
  obtain ⟨f1, hf1⟩ := ancestor_of_reaches hm hc hread hchain hB (by omega) e1
  obtain ⟨f2, hf2⟩ := ancestor_of_reaches hm hc hread hchain hB (by omega) e2
  refine ⟨f1 + f2, ancestor_fuel_mono hf1 f2, ?_⟩
  rw [Nat.add_comm]
  exact ancestor_fuel_mono hf2 f1

/-- Witness for the amended C17 (scenario S6): A at slot 10, B at slot 12; the ancestor of B at
slot 11 is empty and its ancestor at slot 10 is A. -/
theorem ancestor_across_skipped_slot_witness :
    ∃ fuel : Nat,
      ancestor skippedSlotService background fuel (sampleRoot 2) 11 = some (Except.ok []) ∧
      ancestor skippedSlotService background fuel (sampleRoot 2) 10
        = some (Except.ok (sampleRoot 1)) :=
  ancestor_across_skipped_slot skippedSlotService (slotsIncrease_of_check (by decide))
    background rfl (fun _ => rfl) (sampleRoot 2) (sampleRoot 2)
    { Slot := 10, ParentRoot := sampleRoot 0 } { Slot := 12, ParentRoot := sampleRoot 1 } 11
    (Reaches.refl _) (by decide) (by decide) (by decide) (by decide)

/-! ## A missing block on the walk -/

/-- C18: when the walk of `ancestor(r, slot)` visits a root, `r` itself or a parent root reached
while every block read so far lies above `slot`, and the store resolves that root to no block,
`ancestor` returns the nil-block error: some recursion budget gives that error, and no budget
gives anything else. -/
theorem ancestor_missing_block_error (s : Service) (ctx : Context) (slot : Nat) (r x : Bytes)
    (hv : Visits s ctx slot r x) (hx : ResolvesToNoBlock s x) :
    (∃ fuel : Nat, ancestor s ctx fuel r slot = some (Except.error Error.nilBlock)) ∧
      ∀ (fuel : Nat) (res : Except Error Bytes),
        ancestor s ctx fuel r slot = some res → res = Except.error Error.nilBlock := by
  have hex : ∃ fuel : Nat, ancestor s ctx fuel r slot = some (Except.error Error.nilBlock) := by
    induction hv with
    | start r hc =>
      refine ⟨1, ?_⟩
      unfold ancestor
      rcases hx with h | ⟨signed, h, hb⟩
      · simp only [hc, h]
      · simp only [hc, h, hb]
    | hop signed b hc hs hb habove _ ih =>
      obtain ⟨fuel, hf⟩ := ih hx
      exact ⟨fuel + 1, by rw [ancestor_succ_of_above hc hs hb habove]; exact hf⟩
  refine ⟨hex, ?_⟩
  intro fuel res hres
  obtain ⟨fuel0, h0⟩ := hex
  exact ancestor_fuel_det hres h0

/-- Witness for C18: in the store of scenario S6 the parent of A, the all-zero root, names no
block; the walk from B to slot 5 visits it and returns the nil-block error. -/
theorem ancestor_missing_block_error_witness :
    (∃ fuel : Nat, ancestor skippedSlotService background fuel (sampleRoot 2) 5
        = some (Except.error Error.nilBlock)) ∧
      ∀ (fuel : Nat) (res : Except Error Bytes),
        ancestor skippedSlotService background fuel (sampleRoot 2) 5 = some res →
        res = Except.error Error.nilBlock :=
  ancestor_missing_block_error skippedSlotService background 5 (sampleRoot 2) (sampleRoot 0)
    (Visits.hop { Block := some { Slot := 12, ParentRoot := sampleRoot 1 } }
      { Slot := 12, ParentRoot := sampleRoot 1 } rfl (by decide) rfl (by decide)
      (Visits.hop { Block := some { Slot := 10, ParentRoot := sampleRoot 0 } }
        { Slot := 10, ParentRoot := sampleRoot 0 } rfl (by decide) rfl (by decide)
        (Visits.start _ rfl)))
    (Or.inl (by decide))

/-! ## Missing blocks behind a justified checkpoint -/

/-- C19, as stated, fails: outside the window, with a current justified root that names no
stored block and a candidate whose block sits at slot 320, not above `start_slot(10) = 320`,
`shouldUpdateCurrentJustified` answers false with no error, before it reads the justified
block. -/
theorem shouldUpdateCurrentJustified_missing_counterexample :
    ¬ (SlotsSinceEpochStarts sampleConfig (currentSlot (sampleEnv 4332 false)
        lostJustifiedService) < sampleConfig.SafeSlotsToUpdateJustified) ∧
    lostJustifiedService.beaconDB.Block (ToBytes32 lostJustifiedService.justifiedCheckpt.Root)
      = Except.ok none ∧
    shouldUpdateCurrentJustified (sampleEnv 4332 false) lostJustifiedService background 2
      { Epoch := 11, Root := sampleRoot 1 } = some (Except.ok false) := by
  refine ⟨by decide, by decide, by decide⟩

/-- C19, amended: outside the early-slot window, if the candidate root resolves to no block,
`shouldUpdateCurrentJustified` returns the nil-new-justified-block error; if the candidate root
resolves to a block whose slot is strictly greater than `start_slot(justifiedCheckpt.Epoch)` and
the current justified root resolves to no block, it returns the nil-justified-block error; and
if the candidate root resolves to a block whose slot is not greater than that start slot, it
answers false without reading the justified block. -/
theorem shouldUpdateCurrentJustified_missing_block (env : Env) (s : Service) (ctx : Context)
    (fuel : Nat) (newJustifiedCheckpt : Checkpoint)
    (hlate : ¬ SlotsSinceEpochStarts env.cfg (currentSlot env s) <
      env.cfg.SafeSlotsToUpdateJustified) :
    (ResolvesToNoBlock s newJustifiedCheckpt.Root →
      shouldUpdateCurrentJustified env s ctx fuel newJustifiedCheckpt
        = some (Except.error Error.nilNewJustifiedBlock)) ∧
    (∀ (newSigned : SignedBeaconBlock) (newBlock : BeaconBlock),
      s.beaconDB.Block (ToBytes32 newJustifiedCheckpt.Root) = Except.ok (some newSigned) →
      newSigned.Block = some newBlock →
      StartSlot env.cfg s.justifiedCheckpt.Epoch < newBlock.Slot →
      ResolvesToNoBlock s s.justifiedCheckpt.Root →
      shouldUpdateCurrentJustified env s ctx fuel newJustifiedCheckpt
        = some (Except.error Error.nilJustifiedBlock)) ∧
    (∀ (newSigned : SignedBeaconBlock) (newBlock : BeaconBlock),
      s.beaconDB.Block (ToBytes32 newJustifiedCheckpt.Root) = Except.ok (some newSigned) →
      newSigned.Block = some newBlock →
      newBlock.Slot ≤ StartSlot env.cfg s.justifiedCheckpt.Epoch →
      shouldUpdateCurrentJustified env s ctx fuel newJustifiedCheckpt
        = some (Except.ok false)) := by
  refine ⟨?_, ?_, ?_⟩
  · intro hx
    unfold shouldUpdateCurrentJustified
    rw [if_neg hlate]
    rcases hx with h | ⟨signed, h, hb⟩
    · simp only [h]
    · simp only [h, hb]
  · intro newSigned newBlock hnew hnb habove hx
    unfold shouldUpdateCurrentJustified
    rw [if_neg hlate]
    simp only [hnew, hnb]
    rw [if_neg (by omega)]
    rcases hx with h | ⟨signed, h, hb⟩
    · simp only [h]
    · simp only [h, hb]
  · intro newSigned newBlock hnew hnb hle
    unfold shouldUpdateCurrentJustified
    rw [if_neg hlate]
    simp only [hnew, hnb]
    rw [if_pos hle]

/-- Witness for the amended C19: outside the window, a candidate root that names no stored block
gives the nil-new-justified-block error, and a candidate at slot 352 over a justified root that
names no stored block gives the nil-justified-block error. -/
theorem shouldUpdateCurrentJustified_missing_block_witness :
    shouldUpdateCurrentJustified (sampleEnv 4332 false) lostJustifiedService background 2
        { Epoch := 11, Root := sampleRoot 7 }
      = some (Except.error Error.nilNewJustifiedBlock) ∧
    shouldUpdateCurrentJustified (sampleEnv 4332 false) lostJustifiedService background 2
        { Epoch := 11, Root := sampleRoot 3 }
      = some (Except.error Error.nilJustifiedBlock) :=
  ⟨(shouldUpdateCurrentJustified_missing_block (sampleEnv 4332 false) lostJustifiedService
      background 2 { Epoch := 11, Root := sampleRoot 7 } (by decide)).1 (Or.inl (by decide)),
   (shouldUpdateCurrentJustified_missing_block (sampleEnv 4332 false) lostJustifiedService
      background 2 { Epoch := 11, Root := sampleRoot 3 } (by decide)).2.1
      { Block := some { Slot := 352, ParentRoot := sampleRoot 2 } }
      { Slot := 352, ParentRoot := sampleRoot 2 } (by decide) rfl (by decide)
      (Or.inl (by decide))⟩

/-! ## The walk ends -/

/-- C20: in a store whose slots increase from parent to child, for every root `r`, slot and
context, the parent chain from `r` down to the first block with a slot of at most `slot` has a
finite length `n`, and the walk of `ancestor(r, slot)` ends within `n` calls: the budget `n`
gives a result, reached in at most `n` hops with at most one block read per hop, and exactly
one per hop while the context is live. -/
theorem ancestor_terminates (s : Service) (hm : SlotsIncrease s) (ctx : Context) (r : Bytes)
    (slot : Nat) :
    ∃ n : Nat, ChainLength s slot r n ∧
      ∃ (res : Except Error Bytes) (hops reads : Nat),
        ancestor s ctx n r slot = some res ∧
        ancestorCounted s ctx n r slot = some (res, hops, reads) ∧
        hops ≤ n ∧ reads ≤ hops ∧ (ctx.err = none → reads = hops) := by
  have hbound : ∃ k : Nat, ∀ b : BeaconBlock, blockAt s r = some b → b.Slot ≤ k := by
    cases hb : blockAt s r with
    | none => exact ⟨0, fun b h => by cases h⟩
    | some b0 =>
      refine ⟨b0.Slot, fun b h => ?_⟩
      injection h with h
      subst h
      exact le_refl _
  obtain ⟨k, hk⟩ := hbound
  obtain ⟨n, hn, _⟩ := chainLength_exists hm slot k r hk
  obtain ⟨res, hops, reads, hrun, h1, h2, h3⟩ := ancestorCounted_of_chainLength hn ctx
  refine ⟨n, hn, res, hops, reads, ?_, hrun, h1, h2, h3⟩
  rw [← ancestorCounted_result, hrun]
  rfl

/-- Witness for C20 (scenario S6): the chain from B down to slot 10 has the two roots of B and A,
and the walk from B to slot 10 ends in two hops with two reads. -/
theorem ancestor_terminates_witness :
    ancestorCounted skippedSlotService background 2 (sampleRoot 2) 10
      = some (Except.ok (sampleRoot 1), 2, 2) ∧
    ∃ n : Nat, ChainLength skippedSlotService 10 (sampleRoot 2) n ∧
      ∃ (res : Except Error Bytes) (hops reads : Nat),
        ancestor skippedSlotService background n (sampleRoot 2) 10 = some res ∧
        ancestorCounted skippedSlotService background n (sampleRoot 2) 10
          = some (res, hops, reads) ∧
        hops ≤ n ∧ reads ≤ hops ∧ (background.err = none → reads = hops) :=
  ⟨by decide,
   ancestor_terminates skippedSlotService (slotsIncrease_of_check (by decide)) background
    (sampleRoot 2) 10⟩

/-! ## A block absent from the store -/

/-- C21, at the failing input: in the store of scenario S6 the all-zero root names no block and
the store answers its read with no block and no error; the walk from that root returns the
nil-block error, and so does the walk from B to slot 5, which reaches that root as the parent
of A. -/
theorem ancestor_absent_block_is_error :
    blockAt skippedSlotService (sampleRoot 0) = none ∧
    skippedSlotService.beaconDB.Block (ToBytes32 (sampleRoot 0)) = Except.ok none ∧
    ancestor skippedSlotService background 1 (sampleRoot 0) 5
      = some (Except.error Error.nilBlock) ∧
    ancestor skippedSlotService background 3 (sampleRoot 2) 5
      = some (Except.error Error.nilBlock) := by
  refine ⟨by decide, by decide, by decide, by decide⟩

/-! ## The genesis validators -/

/-- C22, at the failing input: the client returns `MinGenesisActiveValidatorCount = 64`
validators, of which the last is withdrawable at epoch 5 and not at `FarFutureEpoch`; the loop
counts it in `withdrawEpochWrongCount`, and `validatorsAreActive` returns nil. -/
theorem validatorsAreActive_accepts_withdrawable_validator :
    oneWithdrawableList.length = sampleConfig.MinGenesisActiveValidatorCount ∧
    withdrawableValidator 2 ∈ oneWithdrawableList ∧
    (withdrawableValidator 2).WithdrawableEpoch ≠ sampleConfig.FarFutureEpoch ∧
    (oneWithdrawableList.foldl (countWrong sampleConfig)
        { effBalanceLowCount := 0, activeEpochWrongCount := 0, exitEpochWrongCount := 0,
          withdrawEpochWrongCount := 0 }).withdrawEpochWrongCount = 1 ∧
    validatorsAreActive sampleConfig (Except.ok oneWithdrawableList) = none := by
  refine ⟨by decide, by decide, by decide, by decide, by decide⟩

/-! ## The best justified epoch against the justified epoch -/

/-- C23: for every service state in which `bestJustifiedCheckpt.Epoch >= justifiedCheckpt.Epoch`
holds and every post-state, the predicate holds after `updateJustified`, whether it returns an
error or not, and the epoch of `bestJustifiedCheckpt` after the call is at least its epoch
before. -/
theorem updateJustified_keeps_best_above_justified (env : Env) (s : Service) (ctx : Context)
    (fuel : Nat) (state : BeaconState) (s2 : Service) (err : Option Error)
    (hinv : s.bestJustifiedCheckpt.Epoch ≥ s.justifiedCheckpt.Epoch)
    (h : updateJustified env s ctx fuel state = some (s2, err)) :
    s2.bestJustifiedCheckpt.Epoch ≥ s2.justifiedCheckpt.Epoch ∧
      s2.bestJustifiedCheckpt.Epoch ≥ s.bestJustifiedCheckpt.Epoch := by
  obtain ⟨hbest, _, _, _, hor⟩ := updateJustified_outcome env s ctx fuel state s2 err h
  have hb : s2.bestJustifiedCheckpt.Epoch ≥ s.bestJustifiedCheckpt.Epoch ∧
      s2.bestJustifiedCheckpt.Epoch ≥ state.CurrentJustifiedCheckpoint.Epoch := by
    rw [hbest]
    by_cases hgt : state.CurrentJustifiedCheckpoint.Epoch > s.bestJustifiedCheckpt.Epoch
    · rw [if_pos hgt]
      omega
    · rw [if_neg hgt]
      omega
  refine ⟨?_, hb.1⟩
  rcases hor with ⟨e, _, _, hj, _⟩ | ⟨canUpdate, _, hj⟩
  · rw [hj]
    omega
  · rw [hj]
    cases canUpdate
    · simp only [Bool.false_eq_true, if_false]
      omega
    · simp only [if_true]
      omega

/-- Witness for C23: on success (scenario S3) the best justified epoch rises from 10 to 11 over
the justified epoch 10; on the missing-block error the best justified epoch rises to 11 all the
same and the justified epoch stays 10. -/
theorem updateJustified_keeps_best_above_justified_witness :
    (bouncedService.bestJustifiedCheckpt.Epoch ≥ bouncedService.justifiedCheckpt.Epoch ∧
      bouncedService.bestJustifiedCheckpt.Epoch ≥ bouncingService.bestJustifiedCheckpt.Epoch) ∧
    ((bestReplacedService { Epoch := 11, Root := sampleRoot 7 }).bestJustifiedCheckpt.Epoch
        ≥ (bestReplacedService { Epoch := 11, Root := sampleRoot 7 }).justifiedCheckpt.Epoch ∧
      (bestReplacedService { Epoch := 11, Root := sampleRoot 7 }).bestJustifiedCheckpt.Epoch
        ≥ bouncingService.bestJustifiedCheckpt.Epoch) :=
  ⟨updateJustified_keeps_best_above_justified (sampleEnv 4332 false) bouncingService background
      2 (postStateWith { Epoch := 11, Root := sampleRoot 3 }) bouncedService none
      (by decide) rfl,
   updateJustified_keeps_best_above_justified (sampleEnv 4332 false) bouncingService background
      2 (postStateWith { Epoch := 11, Root := sampleRoot 7 })
      (bestReplacedService { Epoch := 11, Root := sampleRoot 7 })
      (some Error.nilNewJustifiedBlock) (by decide) rfl⟩

end Blockchain
